import Mathlib

/-!
Verification of the dbf.py dBase table library.

This file gives a shallow embedding of the parts of `src/dbf.py` that the
claims C1..C10 are about, and proves (or refutes) each claim against that
embedding.  Conventions:

* Python byte strings are modelled as `List Nat` (each entry a byte value
  0..255); Python text strings as `String` or `List Char` where the claim
  needs character operations.
* Python exceptions are modelled with the `Except` monad over `PyErr`.
  A reference to an undefined global name (as happens in the source's
  `raise DateOverflow(...)`, `DateOverflow` being defined nowhere in the
  module) is modelled as `PyErr.nameError`, since Python raises `NameError`
  while evaluating the `raise` statement, before any exception object of
  the intended class can be constructed.
* Stateful code is modelled by explicit state passing: a mutating method
  becomes a function from the old state to the new state (paired with an
  `Except` result when the method can raise after having mutated state).
-/

namespace Dbf

/-- Kinds of Python exceptions raised by the code under study.  The first
three correspond to the library's own exception classes (`DataOverflow`
and `FieldMissing` are subclasses of `DbfError`); `nameError`,
`attributeError` and `indexError` model the interpreter's built-in
`NameError`, `AttributeError` and `IndexError`. -/
inductive PyErr where
  | dataOverflow (message : String)
  | dbfError (message : String)
  | fieldMissing (fieldname : String)
  | nameError (name : String)
  | attributeError (name : String)
  | indexError (message : String)
  | bof
  | eof
deriving Repr, DecidableEq

/-! ## Byte-level primitives (dbf.py lines 1272..1323)

`struct.pack('<H'/' >H'/'<L'/'>L', v)` on an in-range value produces the
base-256 digits of `v`, least significant first for little endian. -/

/-- Little-endian 2-byte encoding of `v` (the digits of `v` in base 256),
as produced by Python's `struct.pack` with format `<H`. -/
def u16LE (v : Nat) : List Nat := [v % 256, v / 256 % 256]

/-- Big-endian 2-byte encoding of `v` (`struct.pack` format `>H`). -/
def u16BE (v : Nat) : List Nat := [v / 256 % 256, v % 256]

/-- Little-endian 4-byte encoding of `v` (`struct.pack` format `<L`). -/
def u32LE (v : Nat) : List Nat :=
  [v % 256, v / 256 % 256, v / 65536 % 256, v / 16777216 % 256]

/-- Big-endian 4-byte encoding of `v` (`struct.pack` format `>L`). -/
def u32BE (v : Nat) : List Nat :=
  [v / 16777216 % 256, v / 65536 % 256, v / 256 % 256, v % 256]

/-- `packShortInt` (dbf.py 1272): two-byte integer; values above 65535 hit
the size check, whose `raise DateOverflow(...)` statement references the
undefined global `DateOverflow` and therefore raises `NameError`. -/
def packShortInt (value : Nat) (bigendian : Bool := false) : Except PyErr (List Nat) :=
  if value > 65535 then .error (.nameError "DateOverflow")
  else .ok (if bigendian then u16BE value else u16LE value)

/-- `packLongInt` (dbf.py 1281): four-byte integer; values above 4294967295
hit the size check, which likewise references the undefined global
`DateOverflow` and raises `NameError`. -/
def packLongInt (value : Nat) (bigendian : Bool := false) : Except PyErr (List Nat) :=
  if value > 4294967295 then .error (.nameError "DateOverflow")
  else .ok (if bigendian then u32BE value else u32LE value)

/-- Upper-case an ASCII character, as Python's `str.upper` does for the
ASCII field names accepted by the library. -/
def pyUpper (c : Char) : Char := c.toUpper

/-- `packStr` (dbf.py 1293): 11-byte upper-cased NUL-padded field name;
names longer than 10 characters raise a plain `DbfError` (per the
function's own docstring), not `DataOverflow`. -/
def packStr (string : List Char) : Except PyErr (List Char) :=
  if string.length > 10 then
    .error (.dbfError ("Maximum string size is ten characters -- " ++
      String.mk string ++ " has " ++ toString string.length ++ " characters"))
  else
    .ok (string.map pyUpper ++ List.replicate (11 - string.length) (Char.ofNat 0))

/-- `unpackShortInt` (dbf.py 1298): value of a 2-byte field.  Modelled for
lists of any length as a positional fold; on the 2-byte inputs the source
feeds it, this agrees with `struct.unpack`. -/
def unpackShortInt (bytes : List Nat) (bigendian : Bool := false) : Nat :=
  if bigendian then bytes.foldl (fun a b => a * 256 + b) 0
  else bytes.foldr (fun b a => a * 256 + b) 0

/-- `unpackLongInt` (dbf.py 1304): value of a 4-byte field, same convention
as `unpackShortInt`. -/
def unpackLongInt (bytes : List Nat) (bigendian : Bool := false) : Nat :=
  if bigendian then bytes.foldl (fun a b => a * 256 + b) 0
  else bytes.foldr (fun b a => a * 256 + b) 0

/-! ## Three-valued logic (dbf.py class Logical, lines 697..870)

The three singleton instances `Logical.true`, `Logical.false`,
`Logical.unknown` become the three constructors.  In the source,
`y == None` (via `Logical.__eq__`) is truthy exactly when `y` is the
unknown singleton, `y == True` exactly when `y` is the true singleton,
and `(x.false, x.true)[x]` (via `Logical.__index__`) selects `x` itself
when `x` is true or false. -/

inductive Logical where
  | true
  | false
  | unknown
deriving Repr, DecidableEq

/-- `Logical.A` (dbf.py 700, wired to `|` and `+`): the source tests
`x.value is None or y == None` FIRST, so an unknown operand always
produces unknown, even when the other operand is true. -/
def Logical.A (x y : Logical) : Logical :=
  if x = Logical.unknown ∨ y = Logical.unknown then Logical.unknown
  else if x = Logical.true ∨ y = Logical.true then Logical.true
  else Logical.false

/-- `Logical.K` (dbf.py 774, wired to `&` and `*`): the source tests
`x.value is None or y == None` FIRST, so an unknown operand always
produces unknown, even when the other operand is false. -/
def Logical.K (x y : Logical) : Logical :=
  if x = Logical.unknown ∨ y = Logical.unknown then Logical.unknown
  else if y = Logical.true then x
  else Logical.false

/-! ## Integer field codec (dbf.py updateInteger / retrieveInteger) -/

/-- `struct.pack('<i', v)`: two's-complement little-endian encoding of a
signed 32-bit value, i.e. the base-256 digits of `v mod 2^32`. -/
def int32LE (v : Int) : List Nat := u32LE (v % 4294967296).toNat

/-- `retrieveInteger` (dbf.py 1361) restricted to its default host class:
`struct.unpack('<i', bytes)`, the signed little-endian reading. -/
def retrieveInteger (bytes : List Nat) : Int :=
  let u := unpackLongInt bytes false
  if u < 2147483648 then (u : Int) else (u : Int) - 4294967296

/-- `updateInteger` (dbf.py 1367).  The source first attempts `int(value)`;
we model the host value as `some v` when that coercion yields `v` and as
`none` when it raises (any non-coercible input), in which case the source
raises `DbfError`.  The range check `not -2147483648 < value < 2147483647`
is strict at BOTH endpoints, so -2147483648 and 2147483647 raise
`DataOverflow`. -/
def updateInteger (value : Option Int) : Except PyErr (List Nat) :=
  match value with
  | none => .error (.dbfError "incompatible type")
  | some v =>
    if ¬(-2147483648 < v ∧ v < 2147483647) then
      .error (.dataOverflow
        ("Integer size exceeded.  Possible: -2,147,483,648..+2,147,483,647.  Attempted: "
          ++ toString v))
    else .ok (int32LE v)

/-! ## Null-capable temporal values (dbf.py classes Date / DateTime / Time)

Each wrapper stores either a real `datetime` value or the sentinel
`False`; we model the wrapper as an `Option` over a record of the
components.  Python compares `datetime.date` / `datetime.datetime` /
`datetime.time` values lexicographically by components, which the
`lt` / `le` functions below spell out. -/

/-- Components of a `datetime.date`. -/
structure Ymd where
  y : Nat
  mo : Nat
  d : Nat
deriving Repr, DecidableEq

/-- Lexicographic strict order on date components, as `datetime.date.__lt__`. -/
def Ymd.lt (a b : Ymd) : Bool :=
  a.y < b.y || (a.y == b.y && (a.mo < b.mo || (a.mo == b.mo && a.d < b.d)))

/-- Lexicographic order-or-equal on date components. -/
def Ymd.le (a b : Ymd) : Bool := Ymd.lt a b || a == b

/-- Components of a `datetime.datetime`. -/
structure Dtm where
  y : Nat
  mo : Nat
  d : Nat
  hh : Nat
  mi : Nat
  ss : Nat
  us : Nat
deriving Repr, DecidableEq

/-- Lexicographic strict order on datetime components. -/
def Dtm.lt (a b : Dtm) : Bool :=
  a.y < b.y || (a.y == b.y && (a.mo < b.mo || (a.mo == b.mo && (a.d < b.d ||
    (a.d == b.d && (a.hh < b.hh || (a.hh == b.hh && (a.mi < b.mi ||
    (a.mi == b.mi && (a.ss < b.ss || (a.ss == b.ss && a.us < b.us)))))))))))

/-- Lexicographic order-or-equal on datetime components. -/
def Dtm.le (a b : Dtm) : Bool := Dtm.lt a b || a == b

/-- Components of a `datetime.time`. -/
structure Hms where
  hh : Nat
  mi : Nat
  ss : Nat
  us : Nat
deriving Repr, DecidableEq

/-- Lexicographic strict order on time components. -/
def Hms.lt (a b : Hms) : Bool :=
  a.hh < b.hh || (a.hh == b.hh && (a.mi < b.mi || (a.mi == b.mi &&
    (a.ss < b.ss || (a.ss == b.ss && a.us < b.us)))))

/-- Lexicographic order-or-equal on time components. -/
def Hms.le (a b : Hms) : Bool := Hms.lt a b || a == b

/-- The null-capable `Date`: `none` is the empty state (`_date = False`). -/
abbrev Date := Option Ymd

/-- `Date.__eq__` (dbf.py 180), restricted to `Date` operands. -/
def Date.eq : Date → Date → Bool
  | some a, some b => a == b
  | some _, none => false
  | none, some _ => false
  | none, none => true

/-- `Date.__ge__` (dbf.py 202): note the source returns `False` for
non-empty >= empty (line 209). -/
def Date.ge : Date → Date → Bool
  | some a, some b => Ymd.le b a
  | some _, none => false
  | none, some _ => false
  | none, none => true

/-- `Date.__gt__` (dbf.py 218): non-empty > empty is `True` (line 225). -/
def Date.gt : Date → Date → Bool
  | some a, some b => Ymd.lt b a
  | some _, none => true
  | none, some _ => false
  | none, none => false

/-- `Date.__le__` (dbf.py 236). -/
def Date.le : Date → Date → Bool
  | some a, some b => Ymd.le a b
  | some _, none => false
  | none, some _ => true
  | none, none => true

/-- `Date.__lt__` (dbf.py 252). -/
def Date.lt : Date → Date → Bool
  | some a, some b => Ymd.lt a b
  | some _, none => false
  | none, some _ => true
  | none, none => false

/-- The null-capable `DateTime`: `none` is the empty state. -/
abbrev DateTime := Option Dtm

/-- `DateTime.__eq__` (dbf.py 366), restricted to `DateTime` operands. -/
def DateTime.eq : DateTime → DateTime → Bool
  | some a, some b => a == b
  | some _, none => false
  | none, some _ => false
  | none, none => true

/-- `DateTime.__ge__` (dbf.py 388). -/
def DateTime.ge : DateTime → DateTime → Bool
  | some a, some b => Dtm.le b a
  | some _, none => false
  | none, some _ => false
  | none, none => true

/-- `DateTime.__gt__` (dbf.py 404). -/
def DateTime.gt : DateTime → DateTime → Bool
  | some a, some b => Dtm.lt b a
  | some _, none => true
  | none, some _ => false
  | none, none => false

/-- `DateTime.__le__` (dbf.py 422). -/
def DateTime.le : DateTime → DateTime → Bool
  | some a, some b => Dtm.le a b
  | some _, none => false
  | none, some _ => true
  | none, none => true

/-- `DateTime.__lt__` (dbf.py 438). -/
def DateTime.lt : DateTime → DateTime → Bool
  | some a, some b => Dtm.lt a b
  | some _, none => false
  | none, some _ => true
  | none, none => false

/-- The null-capable `Time`: `none` is the empty state. -/
abbrev Time := Option Hms

/-- `Time.__eq__` (dbf.py 558), restricted to `Time` operands. -/
def Time.eq : Time → Time → Bool
  | some a, some b => a == b
  | some _, none => false
  | none, some _ => false
  | none, none => true

/-- `Time.__ge__` (dbf.py 580). -/
def Time.ge : Time → Time → Bool
  | some a, some b => Hms.le b a
  | some _, none => false
  | none, some _ => false
  | none, none => true

/-- `Time.__gt__` (dbf.py 596).  The non-empty branch mistakenly tests
`type(other) == DateTime` instead of `Time`, so for a non-empty left
operand and a `Time` right operand the method returns `NotImplemented`
and Python falls back to the reflected `other.__lt__(self)`: that gives
`Hms.lt b a` for two non-empty values and `True` for non-empty > empty.
The empty-left branches test `Time` correctly and return directly. -/
def Time.gt : Time → Time → Bool
  | some a, some b => Hms.lt b a
  | some _, none => true
  | none, some _ => false
  | none, none => false

/-- `Time.__le__` (dbf.py 614). -/
def Time.le : Time → Time → Bool
  | some a, some b => Hms.le a b
  | some _, none => false
  | none, some _ => true
  | none, none => true

/-- `Time.__lt__` (dbf.py 630). -/
def Time.lt : Time → Time → Bool
  | some a, some b => Hms.lt a b
  | some _, none => false
  | none, some _ => true
  | none, none => false

/-! ## Attribute lookup on DbfTable and `goto(criteria)` (dbf.py 2416..2437)

`goto` with a tuple of criteria runs `while not yo.Eof():`.  Attribute
lookup for `Eof` on a `DbfTable` instance searches the instance and the
class; the complete list of class-level names of `DbfTable` (and the
instance attributes assigned in `__init__`), transcribed from the source,
is below.  `Eof` is not among them (the table's cursor methods are the
lower-case `eof` / `bof`), so lookup enters `__getattr__` (dbf.py 1896),
whose only special case is the substring test `name in ('_table')`; for
`Eof` it falls through to `object.__getattribute__`, which raises
`AttributeError`. -/

/-- Every attribute name resolvable on a `DbfTable` instance: class-level
assignments, nested classes, methods and properties of `class DbfTable`
(dbf.py 1531..2642) plus instance attributes set in `__init__`. -/
def dbfTableAttrs : List String :=
  ["_version", "_versionabbv", "_fieldtypes", "_memoext", "_memotypes",
   "_memoClass", "_yesMemoMask", "_noMemoMask", "_fixed_fields",
   "_variable_fields", "_character_fields", "_decimal_fields",
   "_numeric_fields", "_currency_fields", "_dbfTableHeader",
   "_dbfTableHeaderExtra", "_supported_tables", "_read_only", "_meta_only",
   "_use_deleted", "backup", "_DbfLists", "_Indexen", "_MetaData",
   "_TableHeader", "_Table", "DbfIterator", "_buildHeaderFields",
   "_checkMemoIntegrity", "_initializeFields", "_fieldLayout", "_loadtable",
   "_list_fields", "_update_disk", "codepage", "field_count", "field_names",
   "filename", "last_update", "memoname", "record_length", "record_number",
   "supported_tables", "use_deleted", "version", "add_fields", "append",
   "bof", "bottom", "close", "create_backup", "create_index", "current",
   "delete_fields", "eof", "export", "find", "get_record", "goto",
   "is_decimal", "is_memotype", "new", "next", "open", "pack", "prev",
   "query", "reindex", "rename_field", "resize_field", "size", "sql",
   "structure", "top", "type", "zap",
   "_dbflists", "_indexen", "_meta", "_table"]

/-- Attribute lookup on a `DbfTable` instance for a non-dunder name:
succeeds for the names above (including `_table`, which `__getattr__`
materializes), otherwise `object.__getattribute__` raises
`AttributeError`. -/
def dbfTableGetattr (name : String) : Except PyErr Unit :=
  if name ∈ dbfTableAttrs then .ok () else .error (.attributeError name)

/-- The cursor-relevant part of an open table: `record_count` from the
header and the `current` pointer (`-1` = BOF, `record_count` = EOF). -/
structure CursorTable where
  record_count : Nat
  current : Int
deriving Repr, DecidableEq

/-- `DbfTable.current(index=True)` (dbf.py 2291): `Bof`/`Eof` outside the
valid range, else the current index. -/
def currentIndex (t : CursorTable) : Except PyErr Nat :=
  if t.current < 0 then .error .bof
  else if t.current ≥ t.record_count then .error .eof
  else .ok t.current.toNat

/-- The criteria branch of `DbfTable.goto` (dbf.py 2427..2437): normalize
the criteria, split them into specs and match values, read the current
index, then evaluate `while not yo.Eof():`.  The condition's attribute
lookup always raises `AttributeError` (see `dbfTableGetattr`), so the
loop body and the trailing `return yo.goto(current)` are unreachable and
are not modelled beyond the final `pure`. -/
def gotoCriteria (t : CursorTable) (criteria : List (Int × String × (Int → Int))) :
    Except PyErr Nat := do
  let _specs := criteria.map (fun c => (c.2.1, c.2.2))
  let _match := criteria.map (fun c => c.1)
  let current ← currentIndex t
  let _ ← dbfTableGetattr "Eof"
  pure current

/-! ## Memo stores (dbf.py _DbfMemo / _Db3Memo / _VfpMemo, lines 1124..1256)

The memo file is a byte list; `writeBytes` is `seek(off)` followed by
`write(data)` (a seek past EOF zero-fills the gap, exactly as a POSIX
file does). -/

/-- The characters Python's `str.rstrip()` removes: space, tab, newline,
vertical tab, form feed, carriage return. -/
def isPySpace (b : Nat) : Bool := b == 32 || b == 9 || b == 10 || b == 11 || b == 12 || b == 13

/-- `data.rstrip()` on a byte string. -/
def rstrip (l : List Nat) : List Nat := (l.reverse.dropWhile isPySpace).reverse

/-- `file.seek(off); file.write(data)`: overwrite in place, zero-filling
any gap between the old end of file and `off`. -/
def writeBytes (file : List Nat) (off : Nat) (data : List Nat) : List Nat :=
  (file ++ List.replicate (off - file.length) 0).take off ++ data ++ file.drop (off + data.length)

/-- `data.find(chr(26) + chr(26))`: index of the first adjacent pair of
`0x1A` bytes, `none` when there is none. -/
def findTerm : List Nat → Option Nat
  | [] => none
  | [_] => none
  | a :: b :: rest =>
    if a == 26 && b == 26 then some 0 else (findTerm (b :: rest)).map (· + 1)

/-- The read loop of `_Db3Memo._get_memo` (dbf.py 1181..1187): read
512-byte chunks, accumulating until the terminator pair is found (then
return everything before it, right-stripped) or EOF is hit (then return
the accumulated data unstripped).  `fuel` only bounds the recursion; the
caller passes enough for the loop to run to its Python exit. -/
def db3Loop : Nat → List Nat → List Nat → List Nat
  | 0, acc, _ => acc
  | fuel + 1, acc, rest =>
    let newdata := rest.take 512
    if newdata.isEmpty then acc
    else
      let acc2 := acc ++ newdata
      match findTerm acc2 with
      | some eom => rstrip (acc2.take eom)
      | none => db3Loop fuel acc2 (rest.drop 512)

/-- State of a dBase III memo file: the bytes on disk and the in-memory
`nextmemo` (next free block number). -/
structure Db3Memo where
  file : List Nat
  nextmemo : Nat
deriving Repr, DecidableEq

/-- `_Db3Memo._get_memo` (dbf.py 1176): seek to `block * 512` and run the
read loop. -/
def db3Get (m : Db3Memo) (block : Nat) : List Nat :=
  let rest := m.file.drop (block * 512)
  db3Loop (rest.length + 1) [] rest

/-- Number of 512-byte blocks for a payload of `length` bytes
(`length // 512`, plus one if there is a remainder). -/
def db3Blocks (length : Nat) : Nat :=
  length / 512 + (if length % 512 = 0 then 0 else 1)

/-- `_Db3Memo._put_memo` (dbf.py 1188): right-strip the data, advance
`nextmemo` by the block count, rewrite the 4-byte header, write the data
followed by the `0x1A 0x1A` terminator at `thismemo * 512`, then read the
memo back and raise `DbfError` when the read-back length differs.  The
state is returned alongside the result because the mutations precede the
possible raise. -/
def db3Put (m : Db3Memo) (data0 : List Nat) : Db3Memo × Except PyErr Nat :=
  let data := rstrip data0
  let length := data.length + 2
  let blocks := db3Blocks length
  let thismemo := m.nextmemo
  let m1 : Db3Memo := { m with nextmemo := thismemo + blocks }
  match packLongInt m1.nextmemo false with
  | .error e => (m1, .error e)
  | .ok hdr =>
    let f1 := writeBytes m1.file 0 hdr
    let f2 := writeBytes f1 (thismemo * 512) (data ++ [26, 26])
    let m2 : Db3Memo := { m1 with file := f2 }
    let double_check := db3Get m2 thismemo
    if double_check.length ≠ data.length then
      (m2, .error (.dbfError "unknown error: memo not saved"))
    else (m2, .ok thismemo)

/-- State of a Visual FoxPro memo file: the bytes on disk and the block
size from the header. -/
structure VfpMemo where
  file : List Nat
  memo_size : Nat
deriving Repr, DecidableEq

/-- `_VfpMemo._get_memo` (dbf.py 1239): read the 8-byte record header at
`block * memo_size`, take the big-endian length from its second half, and
return exactly that many payload bytes. -/
def vfpGet (m : VfpMemo) (block : Nat) : List Nat :=
  let header := (m.file.drop (block * m.memo_size)).take 8
  let length := unpackLongInt (header.drop 4) true
  ((m.file.drop (block * m.memo_size)).drop 8).take length

/-- `_VfpMemo._put_memo` (dbf.py 1244): right-strip the data, read the
next free block from the on-disk header, bump the header by the block
count, then write `00 00 00 01`, the big-endian payload length, and the
payload at `thismemo * memo_size`. -/
def vfpPut (m : VfpMemo) (data0 : List Nat) : VfpMemo × Except PyErr Nat :=
  let data := rstrip data0
  let thismemo := unpackLongInt (m.file.take 4) true
  let length := data.length + 8
  let blocks := length / m.memo_size + (if length % m.memo_size = 0 then 0 else 1)
  match packLongInt (thismemo + blocks) true with
  | .error e => (m, .error e)
  | .ok hdr =>
    let f1 := writeBytes m.file 0 hdr
    match packLongInt data.length true with
    | .error e => ({ m with file := f1 }, .error e)
    | .ok lenb =>
      let f2 := writeBytes f1 (thismemo * m.memo_size) ([0, 0, 0, 1] ++ lenb ++ data)
      ({ m with file := f2 }, .ok thismemo)

/-! ## Table file size model (dbf.py DbfTable, lines 1872..2642)

For the file-size invariant only the length of the table file matters,
together with the header fields that determine where records are written:
`start`, `record_length`, `record_count`, and whether the table is a
dBase III table (which carries a trailing `0x1A`).  A `write` at offset
`off` of `n` bytes extends the file to at least `off + n`; `truncate(n)`
sets the length to exactly `n`. -/

/-- The table state visible to the file-size invariant. -/
structure DiskState where
  start : Nat
  record_length : Nat
  record_count : Nat
  fileLen : Nat
  isDb3 : Bool
deriving Repr, DecidableEq

/-- `fd.seek(off); fd.write(<n bytes>)` on the table file. -/
def dwrite (s : DiskState) (off n : Nat) : DiskState :=
  { s with fileLen := max s.fileLen (off + n) }

/-- `fd.truncate(n)` on the table file. -/
def dtruncate (s : DiskState) (n : Nat) : DiskState := { s with fileLen := n }

/-- `_DbfRecord._update_disk` (dbf.py 919): write `record_length` bytes at
`recnum * record_length + start`. -/
def recordUpdateDisk (s : DiskState) (recnum : Nat) : DiskState :=
  dwrite s (s.start + recnum * s.record_length) s.record_length

/-- The record loop of `DbfTable._update_disk` (dbf.py 1880): rewrite
every record in place. -/
def writeAllRecords (s : DiskState) : DiskState :=
  (List.range s.record_count).foldl recordUpdateDisk s

/-- `DbfTable._update_disk` (dbf.py 1872): write the header (the header
buffer is `start` bytes long), then unless `headeronly` rewrite every
record and truncate to `start + record_count * record_length`; for a
dBase III table additionally write a `0x1A` at EOF and truncate to that
size plus one. -/
def updateDisk (s : DiskState) (headeronly : Bool) : DiskState :=
  let s1 := dwrite s 0 s.start
  let s2 := if headeronly then s1
            else dtruncate (writeAllRecords s1) (s1.start + s1.record_count * s1.record_length)
  if s2.isDb3 then
    dtruncate (dwrite s2 s2.fileLen 1) (s2.start + s2.record_count * s2.record_length + 1)
  else s2

/-- The start of `DbfTable.append` (dbf.py 2171..2173): constructing the
new `_DbfRecord` writes the blank record at `recnum = record_count`
(via `_DbfRecord.__new__` calling `_update_disk`), then
`record_count` is incremented. -/
def appendBlank (s : DiskState) : DiskState :=
  let s1 := recordUpdateDisk s s.record_count
  { s1 with record_count := s1.record_count + 1 }

/-- The `multiple > 1` loop of `append` (dbf.py 2197..2203): each extra
copy is written when the `_DbfRecord` is constructed and again by
`write_record`, at record numbers `single`, `single + 1`, ...;
`record_count` is only updated after the loop. -/
def writeCopies : DiskState → Nat → Nat → DiskState
  | s, _, 0 => s
  | s, single, n + 1 =>
    writeCopies (recordUpdateDisk (recordUpdateDisk s single) single) (single + 1) n

/-- A successful `DbfTable.append` (dbf.py 2157..2210) with `multiple`
copies requested: blank record written and counted, the populated record
written in place, `multiple - 1` extra copies written after it,
`record_count` moved to the total, and a final
`_update_disk(headeronly=True)`. -/
def appendOk (s : DiskState) (multiple : Nat) : DiskState :=
  let s1 := appendBlank s
  let s2 := recordUpdateDisk s1 (s1.record_count - 1)
  let extra := multiple - 1
  let s3 := writeCopies s2 s2.record_count extra
  let s4 := { s3 with record_count := s3.record_count + extra }
  updateDisk s4 true

/-- A failed `DbfTable.append` (dbf.py 2187..2191): after the blank record
was written and counted, the handler pops the record, decrements
`record_count`, and runs a full `_update_disk()` before re-raising. -/
def appendFail (s : DiskState) : DiskState :=
  let s1 := appendBlank s
  updateDisk { s1 with record_count := s1.record_count - 1 } false

/-- One public-API operation as it affects the table file, each composite
transcribed from the corresponding method of `DbfTable`. -/
inductive Step : DiskState → DiskState → Prop
  /-- `write_record` on an existing record (dbf.py 1116). -/
  | writeRecord (s : DiskState) (recnum : Nat) (h : recnum < s.record_count) :
      Step s (recordUpdateDisk s recnum)
  /-- a full `_update_disk()` (used by `add_fields`, `delete_fields`,
  `resize_field` after rewriting the header fields). -/
  | sync (s : DiskState) : Step s (updateDisk s false)
  /-- `_update_disk(headeronly=True)` (used by `rename_field`). -/
  | headerSync (s : DiskState) : Step s (updateDisk s true)
  /-- a successful `append` (dbf.py 2157). -/
  | append (s : DiskState) (multiple : Nat) : Step s (appendOk s multiple)
  /-- an `append` whose field population raised (dbf.py 2187). -/
  | appendRollback (s : DiskState) : Step s (appendFail s)
  /-- `pack` (dbf.py 2498): `record_count` drops by the number of deleted
  records, then a full `_update_disk()`. -/
  | pack (s : DiskState) (removed : Nat) (h : removed ≤ s.record_count) :
      Step s (updateDisk { s with record_count := s.record_count - removed } false)
  /-- `zap` (dbf.py 2630): `record_count := 0`, then a full
  `_update_disk()`. -/
  | zap (s : DiskState) : Step s (updateDisk { s with record_count := 0 } false)
  /-- a field mutation (`add_fields` / `delete_fields` / `resize_field`):
  new `start` and `record_length` (the latter is `1 + sum of field
  lengths`, hence at least 1), then a full `_update_disk()`. -/
  | restructure (s : DiskState) (start2 rlen2 : Nat) (h : 1 ≤ rlen2) :
      Step s (updateDisk { s with start := start2, record_length := rlen2 } false)

/-- States of the table file reachable through the public API: a table is
created with no records and a full sync (`__init__` with field specs ends
in `add_fields`, which ends in `_update_disk()`), then mutated by
`Step`s. -/
inductive Reachable : DiskState → Prop
  | created (start rlen fileLen : Nat) (db3 : Bool) (h : 1 ≤ rlen) :
      Reachable (updateDisk ⟨start, rlen, 0, fileLen, db3⟩ false)
  | step (s t : DiskState) : Reachable s → Step s t → Reachable t

/-- The file-size invariant claimed by the spec, plus the structural fact
`record_length ≥ 1` that the header setter guarantees. -/
def sizeInvariant (s : DiskState) : Prop :=
  s.fileLen = s.start + s.record_count * s.record_length + (if s.isDb3 then 1 else 0)
  ∧ 1 ≤ s.record_length

/-! ## Append atomicity (dbf.py DbfTable.append, lines 2157..2210)

For claim C2 the in-memory record list matters as well; records are kept
abstract (`ρ`), and the field-population step (gathering a dict, tuple or
record into the new blank record) is a parameter that may raise. -/

/-- A table as `append` sees it: the file-size state plus the in-memory
record list (`_table`). -/
structure TableState (ρ : Type) where
  disk : DiskState
  records : List ρ

/-- `DbfTable.append` for a single record (dbf.py 2157..2210, with
`multiple = 1`): write the blank record and add it to `_table`, increment
`record_count`, run the field-population step; on success write the
record and sync the header, on any exception pop the record, restore
`record_count`, run a full `_update_disk()`, and re-raise. -/
def appendWith {ρ : Type} (t : TableState ρ) (blank : ρ)
    (populate : ρ → Except PyErr ρ) : TableState ρ × Except PyErr ρ :=
  let d1 := appendBlank t.disk
  let t1 : TableState ρ := ⟨d1, t.records ++ [blank]⟩
  match populate blank with
  | .error e =>
    let d2 := updateDisk { t1.disk with record_count := t1.disk.record_count - 1 } false
    (⟨d2, t1.records.dropLast⟩, .error e)
  | .ok rec =>
    let d2 := recordUpdateDisk t1.disk (t1.disk.record_count - 1)
    let d3 := updateDisk d2 true
    (⟨d3, t1.records.dropLast ++ [rec]⟩, .ok rec)

/-! ## Ordered index (dbf.py class Index, lines 3171..3224)

Keys live in an arbitrary decidable linear order (Python compares the
key tuples lexicographically).  `bisect_left` / `bisect_right` on the
sorted vectors equal the length of the prefix of strictly-smaller /
smaller-or-equal elements. -/

/-- `bisect.bisect_left` on a sorted list: the number of elements
strictly below `x`. -/
def bisectLeft {K : Type} [LinearOrder K] (l : List K) (x : K) : Nat :=
  (l.takeWhile (fun a => a < x)).length

/-- `bisect.bisect_right` on a sorted list: the number of elements at or
below `x`. -/
def bisectRight {K : Type} [LinearOrder K] (l : List K) (x : K) : Nat :=
  (l.takeWhile (fun a => a ≤ x)).length

/-- `list.insert(i, x)` (indices past the end append, as in Python). -/
def insertAt {α : Type} : List α → Nat → α → List α
  | l, 0, x => x :: l
  | [], _ + 1, x => [x]
  | a :: l, n + 1, x => a :: insertAt l n x

/-- `list.pop(i)` restricted to in-range `i` (the caller guards the
range; out of range Python raises `IndexError`). -/
def popAt {α : Type} : List α → Nat → List α
  | [], _ => []
  | _ :: l, 0 => l
  | a :: l, n + 1 => a :: popAt l n

/-- `_records[rec_num]` on the recno-to-key dict, modelled as an
association list. -/
def assocFind {K : Type} (records : List (Nat × K)) (recno : Nat) : Option K :=
  (records.find? (fun p => p.1 == recno)).map (fun p => p.2)

/-- `_records[rec_num] = value`: replace an existing binding or append a
new one. -/
def assocSet {K : Type} (records : List (Nat × K)) (recno : Nat) (v : K) :
    List (Nat × K) :=
  if records.any (fun p => p.1 == recno) then
    records.map (fun p => if p.1 == recno then (recno, v) else p)
  else records ++ [(recno, v)]

/-- The three parallel containers of `Index`: `_values` (ordered keys),
`_rec_by_val` (matching record numbers), `_records` (recno -> key). -/
structure IndexState (K : Type) where
  values : List K
  recByVal : List Nat
  records : List (Nat × K)
deriving Repr

/-- The insertion step shared by `Index.__init__` and `Index.__call__`
(dbf.py 3204..3207 and 3221..3224): insert at `bisect_right` into both
vectors and record the binding. -/
def indexInsert {K : Type} [LinearOrder K] (st : IndexState K) (recno : Nat) (v : K) :
    IndexState K :=
  let vindex := bisectRight st.values v
  { values := insertAt st.values vindex v,
    recByVal := insertAt st.recByVal vindex recno,
    records := assocSet st.records recno v }

/-- The construction walk of `Index.__init__` (dbf.py 3197..3207) over the
per-record key results (in record order, `none` meaning the key function
returned `DoNotIndex`). -/
def indexInitGo {K : Type} [LinearOrder K] :
    IndexState K → Nat → List (Option K) → IndexState K
  | st, _, [] => st
  | st, recno, none :: rest => indexInitGo st (recno + 1) rest
  | st, recno, some v :: rest => indexInitGo (indexInsert st recno v) (recno + 1) rest

/-- `Index.__init__` (dbf.py 3189): start from empty containers and walk
the table. -/
def indexInit {K : Type} [LinearOrder K] (keys : List (Option K)) : IndexState K :=
  indexInitGo ⟨[], [], []⟩ 0 keys

/-- The removal step of `Index.__call__` (dbf.py 3211..3215): when the
recno has an entry in `_records`, pop position `bisect_left(_values,
old value)` from both vectors — the FIRST entry carrying that key value,
which with duplicate keys need not be the entry of this recno.  The
binding in `_records` is NOT deleted.  Python raises `IndexError` when
the pop position is out of range. -/
def indexRemoveOld {K : Type} [LinearOrder K] (st : IndexState K) (recno : Nat) :
    Except PyErr (IndexState K) :=
  match assocFind st.records recno with
  | none => .ok st
  | some v =>
    let vindex := bisectLeft st.values v
    if vindex < st.values.length then
      let st1 := { st with values := popAt st.values vindex }
      if vindex < st1.recByVal.length then
        .ok { st1 with recByVal := popAt st1.recByVal vindex }
      else .error (.indexError "pop index out of range")
    else .error (.indexError "pop index out of range")

/-- `Index.__call__` (dbf.py 3209..3224), the record-write update: remove
the old entry (see `indexRemoveOld`), recompute the key (`none` models
`DoNotIndex`, in which case the method returns without touching
`_records`), else insert at `bisect_right`. -/
def indexUpdate {K : Type} [LinearOrder K] (st : IndexState K) (recno : Nat)
    (newKey : Option K) : Except PyErr (IndexState K) := do
  let st1 ← indexRemoveOld st recno
  match newKey with
  | none => .ok st1
  | some v => .ok (indexInsert st1 recno v)

/-- Index states reachable via construction and record-write updates. -/
inductive IndexReachable {K : Type} [LinearOrder K] : IndexState K → Prop
  | init (keys : List (Option K)) : IndexReachable (indexInit keys)
  | step (st st2 : IndexState K) (recno : Nat) (newKey : Option K) :
      IndexReachable st → indexUpdate st recno newKey = .ok st2 → IndexReachable st2

/-- The part of the spec's index invariant that the code actually
maintains: the key vector is sorted and the two vectors stay in step. -/
def indexWF {K : Type} [LinearOrder K] (st : IndexState K) : Prop :=
  st.values.Sorted (· ≤ ·) ∧ st.values.length = st.recByVal.length

/-! # Theorems -/

/-- Claim C1 states Kleene semantics: AND returns F whenever at least one
operand is F, OR returns T whenever at least one operand is T, and in
particular F AND ? = F and T OR ? = T.  The code (`Logical.A`, dbf.py 700
and `Logical.K`, dbf.py 774) tests for an unknown operand FIRST, so
F AND ?, ? AND F, T OR ? and ? OR T all evaluate to ?, contradicting the
claim, scenario S6 of the spec, and the docstring of `Logical.A` itself
("True iff at least one of x, y is True"). -/
theorem C1_logical_unknown_dominates :
    Logical.K Logical.false Logical.unknown = Logical.unknown ∧
    Logical.K Logical.unknown Logical.false = Logical.unknown ∧
    Logical.A Logical.true Logical.unknown = Logical.unknown ∧
    Logical.A Logical.unknown Logical.true = Logical.unknown := by
  decide

/-- Claim C4: for each null-capable temporal type, empty `<` / `<=` any
non-empty value is True while empty `>=` / `>` any non-empty value is
False; empty-vs-empty satisfies `==`, `<=`, `>=` but not `<`, `>`; a
non-empty value compares equal only to a non-empty value with the same
components, and empty compares equal only to empty.  All of these hold
for `Date` (dbf.py 158), `DateTime` (dbf.py 347) and `Time` (dbf.py 539). -/
theorem C4_empty_temporal_ordering :
    (∀ a : Ymd,
      Date.lt none (some a) = true ∧ Date.le none (some a) = true ∧
      Date.ge none (some a) = false ∧ Date.gt none (some a) = false ∧
      Date.eq none (some a) = false ∧ Date.eq (some a) none = false) ∧
    (Date.eq (none : Date) none = true ∧ Date.le (none : Date) none = true ∧
      Date.ge (none : Date) none = true ∧ Date.lt (none : Date) none = false ∧
      Date.gt (none : Date) none = false) ∧
    (∀ a b : Ymd, Date.eq (some a) (some b) = true ↔ a = b) ∧
    (∀ a : Dtm,
      DateTime.lt none (some a) = true ∧ DateTime.le none (some a) = true ∧
      DateTime.ge none (some a) = false ∧ DateTime.gt none (some a) = false ∧
      DateTime.eq none (some a) = false ∧ DateTime.eq (some a) none = false) ∧
    (DateTime.eq (none : DateTime) none = true ∧ DateTime.le (none : DateTime) none = true ∧
      DateTime.ge (none : DateTime) none = true ∧ DateTime.lt (none : DateTime) none = false ∧
      DateTime.gt (none : DateTime) none = false) ∧
    (∀ a b : Dtm, DateTime.eq (some a) (some b) = true ↔ a = b) ∧
    (∀ a : Hms,
      Time.lt none (some a) = true ∧ Time.le none (some a) = true ∧
      Time.ge none (some a) = false ∧ Time.gt none (some a) = false ∧
      Time.eq none (some a) = false ∧ Time.eq (some a) none = false) ∧
    (Time.eq (none : Time) none = true ∧ Time.le (none : Time) none = true ∧
      Time.ge (none : Time) none = true ∧ Time.lt (none : Time) none = false ∧
      Time.gt (none : Time) none = false) ∧
    (∀ a b : Hms, Time.eq (some a) (some b) = true ↔ a = b) := by
  refine ⟨fun a => ⟨rfl, rfl, rfl, rfl, rfl, rfl⟩, ⟨rfl, rfl, rfl, rfl, rfl⟩,
    fun a b => ?_,
    fun a => ⟨rfl, rfl, rfl, rfl, rfl, rfl⟩, ⟨rfl, rfl, rfl, rfl, rfl⟩,
    fun a b => ?_,
    fun a => ⟨rfl, rfl, rfl, rfl, rfl, rfl⟩, ⟨rfl, rfl, rfl, rfl, rfl⟩,
    fun a b => ?_⟩
  · simp [Date.eq]
  · simp [DateTime.eq]
  · simp [Time.eq]

/-- Claim C7 as stated is false: the size checks of `packShortInt` and
`packLongInt` reference `DateOverflow`, a name defined nowhere in the
module, so an oversized value raises `NameError` instead of
`DataOverflow`; and `packStr` deliberately raises plain `DbfError` (as
its own docstring says), not `DataOverflow`. -/
theorem C7_counterexample :
    packShortInt 65536 false = Except.error (PyErr.nameError "DateOverflow") ∧
    packLongInt 4294967296 false = Except.error (PyErr.nameError "DateOverflow") ∧
    packStr ("abcdefghijk".toList) = Except.error (PyErr.dbfError
      "Maximum string size is ten characters -- abcdefghijk has 11 characters") :=
  ⟨rfl, rfl, rfl⟩

/-- Claim C7, amended to what the code does: every value above 65535
(resp. 4294967295) makes `packShortInt` (resp. `packLongInt`) raise
`NameError` for the undefined name `DateOverflow` (the intended message
names the maximum and the attempted value, but is never built), and
every name longer than 10 characters makes `packStr` raise a `DbfError`
naming the maximum of ten characters and the attempted string and its
length. -/
theorem C7_size_checks (v w : Nat) (s : List Char)
    (hv : v > 65535) (hw : w > 4294967295) (hs : s.length > 10) :
    packShortInt v false = Except.error (PyErr.nameError "DateOverflow") ∧
    packShortInt v true = Except.error (PyErr.nameError "DateOverflow") ∧
    packLongInt w false = Except.error (PyErr.nameError "DateOverflow") ∧
    packLongInt w true = Except.error (PyErr.nameError "DateOverflow") ∧
    packStr s = Except.error (PyErr.dbfError
      ("Maximum string size is ten characters -- " ++ String.mk s ++ " has "
        ++ toString s.length ++ " characters")) := by
  unfold packShortInt packLongInt packStr
  rw [if_pos hv, if_pos hv, if_pos hw, if_pos hw, if_pos hs]
  exact ⟨rfl, rfl, rfl, rfl, rfl⟩

/-- Witness for `C7_size_checks` at 65536, 4294967296 and an 11-character
name. -/
theorem C7_size_checks_witness :
    ((65536 : Nat) > 65535 ∧ (4294967296 : Nat) > 4294967295 ∧
      ("abcdefghijk".toList).length > 10) ∧
    (packShortInt 65536 false = Except.error (PyErr.nameError "DateOverflow") ∧
     packShortInt 65536 true = Except.error (PyErr.nameError "DateOverflow") ∧
     packLongInt 4294967296 false = Except.error (PyErr.nameError "DateOverflow") ∧
     packLongInt 4294967296 true = Except.error (PyErr.nameError "DateOverflow") ∧
     packStr ("abcdefghijk".toList) = Except.error (PyErr.dbfError
       ("Maximum string size is ten characters -- " ++ String.mk ("abcdefghijk".toList)
         ++ " has " ++ toString ("abcdefghijk".toList).length ++ " characters"))) :=
  ⟨⟨by decide, by decide, by decide⟩,
   C7_size_checks 65536 4294967296 ("abcdefghijk".toList) (by decide) (by decide) (by decide)⟩

/-- Claim C8 says `goto(criteria)` returns the first record whose
transformed field tuple equals the value tuple.  In the code the loop
condition is `while not yo.Eof():`, but `DbfTable` has no attribute
`Eof` (its cursor method is the lower-case `eof`), so on a table with a
valid current record the call always raises `AttributeError` instead of
ever returning a record; the loop body also never advances the cursor.
Evaluated here on a one-record table with the cursor on record 0 and a
single criteria triple. -/
theorem C8_goto_criteria_attribute_error :
    gotoCriteria ⟨1, 0⟩ [(5, "age", fun v => v)] =
      Except.error (PyErr.attributeError "Eof") := by
  rfl

/-- Claim C9: writing to an I field succeeds exactly for integers
strictly between the int32 endpoints; both endpoints -2147483648 and
2147483647 raise `DataOverflow` even though each round-trips through the
4-byte little-endian codec, and a value not coercible to int raises
`DbfError` (`updateInteger`, dbf.py 1367). -/
theorem C9_updateInteger_range :
    (∀ v : Int, (∃ b, updateInteger (some v) = Except.ok b) ↔
      (-2147483648 < v ∧ v < 2147483647)) ∧
    (∃ msg, updateInteger (some (-2147483648)) = Except.error (PyErr.dataOverflow msg)) ∧
    (∃ msg, updateInteger (some 2147483647) = Except.error (PyErr.dataOverflow msg)) ∧
    retrieveInteger (int32LE (-2147483648)) = -2147483648 ∧
    retrieveInteger (int32LE 2147483647) = 2147483647 ∧
    (∃ msg, updateInteger none = Except.error (PyErr.dbfError msg)) := by
  refine ⟨?_, ⟨_, rfl⟩, ⟨_, rfl⟩, by decide, by decide, ⟨_, rfl⟩⟩
  intro v
  constructor
  · rintro ⟨b, hb⟩
    by_contra h
    simp only [updateInteger, if_pos h] at hb
    exact Except.noConfusion hb
  · intro h
    exact ⟨int32LE v, by simp only [updateInteger, if_neg (not_not_intro h)]⟩

/-! ### Memo-store lemmas -/

/-- Dropping a satisfying prefix twice is the same as dropping it once. -/
theorem dropWhile_self_idem {α : Type} (p : α → Bool) (l : List α) :
    (l.dropWhile p).dropWhile p = l.dropWhile p := by
  induction l with
  | nil => rfl
  | cons a l ih =>
    rw [List.dropWhile_cons]
    by_cases h : p a
    · simp [h, ih]
    · simp [List.dropWhile_cons, h]

/-- `rstrip` is idempotent. -/
theorem rstrip_idem (l : List Nat) : rstrip (rstrip l) = rstrip l := by
  unfold rstrip
  rw [List.reverse_reverse, dropWhile_self_idem]

/-- `rstrip` never lengthens a string. -/
theorem rstrip_length_le (l : List Nat) : (rstrip l).length ≤ l.length := by
  unfold rstrip
  simpa using (List.dropWhile_sublist (l := l.reverse) isPySpace).length_le

/-- A terminator found in `a` is found at the same place in `a ++ b`. -/
theorem findTerm_append_of_some (b : List Nat) :
    ∀ (a : List Nat) (p : Nat), findTerm a = some p → findTerm (a ++ b) = some p := by
  intro a
  induction a with
  | nil => intro p h; simp [findTerm] at h
  | cons x rest ih =>
    intro p h
    cases rest with
    | nil => simp [findTerm] at h
    | cons y rest2 =>
      rw [findTerm] at h
      by_cases hxy : (x == 26 && y == 26) = true
      · rw [if_pos hxy] at h
        cases h
        show findTerm (x :: y :: (rest2 ++ b)) = some 0
        rw [findTerm, if_pos hxy]
      · rw [if_neg hxy] at h
        cases hq : findTerm (y :: rest2) with
        | none => rw [hq] at h; simp at h
        | some q =>
          rw [hq] at h
          simp only [Option.map_some'] at h
          cases h
          have h2 := ih (q) hq
          show findTerm (x :: y :: (rest2 ++ b)) = some (q + 1)
          rw [findTerm, if_neg hxy]
          rw [List.cons_append] at h2
          rw [h2, Option.map_some']

/-- A found terminator lies strictly inside the list. -/
theorem findTerm_bound :
    ∀ (a : List Nat) (p : Nat), findTerm a = some p → p + 2 ≤ a.length := by
  intro a
  induction a with
  | nil => intro p h; simp [findTerm] at h
  | cons x rest ih =>
    intro p h
    cases rest with
    | nil => simp [findTerm] at h
    | cons y rest2 =>
      rw [findTerm] at h
      by_cases hxy : (x == 26 && y == 26) = true
      · rw [if_pos hxy] at h
        cases h
        simp
      · rw [if_neg hxy] at h
        cases hq : findTerm (y :: rest2) with
        | none => rw [hq] at h; simp at h
        | some q =>
          rw [hq] at h
          simp only [Option.map_some'] at h
          cases h
          have hih := ih q hq
          simp only [List.length_cons] at hih ⊢
          omega

/-- When `data` is terminator-free and does not end in `0x1A`, the first
terminator of `data ++ 0x1A 0x1A ++ tail` sits exactly at `data.length`. -/
theorem findTerm_term_at (tail : List Nat) :
    ∀ (data : List Nat), findTerm data = none → data.getLast? ≠ some 26 →
      findTerm (data ++ 26 :: 26 :: tail) = some data.length := by
  intro data
  induction data with
  | nil =>
    intro _ _
    rw [List.nil_append, findTerm]
    simp
  | cons x rest ih =>
    intro h1 h2
    cases rest with
    | nil =>
      have hx : x ≠ 26 := by simpa using h2
      have hcond : ¬(x == 26 && (26 : Nat) == 26) = true := by simp [hx]
      show findTerm (x :: 26 :: 26 :: tail) = some 1
      rw [findTerm, if_neg hcond, findTerm]
      simp
    | cons y rest2 =>
      rw [findTerm] at h1
      by_cases hxy : (x == 26 && y == 26) = true
      · rw [if_pos hxy] at h1
        exact absurd h1 (by simp)
      · rw [if_neg hxy] at h1
        have hq : findTerm (y :: rest2) = none := by
          cases hq : findTerm (y :: rest2) with
          | none => rfl
          | some q => rw [hq] at h1; simp at h1
        have h2x : (y :: rest2).getLast? ≠ some 26 := by
          rwa [List.getLast?_cons_cons] at h2
        have h3 := ih hq h2x
        show findTerm (x :: y :: (rest2 ++ 26 :: 26 :: tail)) = some (rest2.length + 1 + 1)
        rw [findTerm, if_neg hxy]
        rw [List.cons_append] at h3
        rw [h3, Option.map_some']
        simp only [List.length_cons]

/-- `data ++ 0x1A 0x1A ++ tail` always has a first terminator, at a
position no later than `data.length`. -/
theorem findTerm_le_append (tail : List Nat) :
    ∀ (data : List Nat),
      ∃ p, findTerm (data ++ 26 :: 26 :: tail) = some p ∧ p ≤ data.length := by
  intro data
  induction data with
  | nil =>
    refine ⟨0, ?_, Nat.le_refl 0⟩
    rw [List.nil_append, findTerm]
    simp
  | cons x rest ih =>
    obtain ⟨p, hp, hple⟩ := ih
    cases hr : rest ++ 26 :: 26 :: tail with
    | nil => exact absurd hr (by simp)
    | cons y rest2 =>
      by_cases hxy : (x == 26 && y == 26) = true
      · refine ⟨0, ?_, Nat.zero_le _⟩
        show findTerm (x :: (rest ++ 26 :: 26 :: tail)) = some 0
        rw [hr, findTerm, if_pos hxy]
      · refine ⟨p + 1, ?_, by simpa using Nat.succ_le_succ hple⟩
        show findTerm (x :: (rest ++ 26 :: 26 :: tail)) = some (p + 1)
        rw [hr, findTerm, if_neg hxy, ← hr, hp, Option.map_some']

/-- The read loop of `_Db3Memo._get_memo`, characterized when the stream
ahead contains a terminator: it returns everything before the first
terminator, right-stripped. -/
theorem db3Loop_of_term :
    ∀ (fuel : Nat) (acc rest : List Nat) (p : Nat), findTerm acc = none →
      rest.length < fuel → findTerm (acc ++ rest) = some p →
      db3Loop fuel acc rest = rstrip ((acc ++ rest).take p) := by
  intro fuel
  induction fuel with
  | zero => intro acc rest p _ hf _; exact absurd hf (Nat.not_lt_zero _)
  | succ fuel ih =>
    intro acc rest p hacc hf hterm
    rw [db3Loop]
    by_cases hempty : (rest.take 512).isEmpty = true
    · have hrest : rest = [] := by
        cases rest with
        | nil => rfl
        | cons a l => simp at hempty
      subst hrest
      rw [List.append_nil] at hterm
      exact absurd hterm (by simp [hacc])
    · rw [if_neg hempty]
      have hsplit : acc ++ rest = (acc ++ rest.take 512) ++ rest.drop 512 := by
        rw [List.append_assoc, List.take_append_drop]
      cases hfound : findTerm (acc ++ rest.take 512) with
      | some eom =>
        have heq : eom = p := by
          have hx := findTerm_append_of_some (rest.drop 512) _ _ hfound
          rw [← hsplit] at hx
          rw [hx] at hterm
          exact Option.some.inj hterm
        subst heq
        have hb := findTerm_bound _ _ hfound
        simp only [hfound]
        have htake : (acc ++ rest).take eom = (acc ++ rest.take 512).take eom := by
          rw [hsplit]
          exact List.take_append_of_le_length (by omega)
        rw [htake]
      | none =>
        have hlen : (rest.drop 512).length < fuel := by
          have h1 : rest ≠ [] := by
            intro h
            subst h
            simp at hempty
          have h2 : 0 < rest.length := List.length_pos.mpr h1
          simp only [List.length_drop]
          omega
        have hterm2 : findTerm ((acc ++ rest.take 512) ++ rest.drop 512) = some p := by
          rw [← hsplit]
          exact hterm
        simp only [hfound]
        rw [ih (acc ++ rest.take 512) (rest.drop 512) p hfound hlen hterm2, ← hsplit]

/-- `_Db3Memo._get_memo` when the bytes from the block onward contain a
terminator. -/
theorem db3Get_of_term (m : Db3Memo) (block p : Nat)
    (h : findTerm (m.file.drop (block * 512)) = some p) :
    db3Get m block = rstrip ((m.file.drop (block * 512)).take p) := by
  unfold db3Get
  have h0 : findTerm ([] : List Nat) = none := rfl
  have := db3Loop_of_term ((m.file.drop (block * 512)).length + 1)
    [] (m.file.drop (block * 512)) p h0 (Nat.lt_succ_self _) (by simpa using h)
  simpa using this

/-- A seek-to-zero write just replaces the first `d.length` bytes. -/
theorem writeBytes_zero (l d : List Nat) : writeBytes l 0 d = d ++ l.drop d.length := by
  unfold writeBytes
  simp

/-- The part of the file before a written region is `off` bytes long. -/
theorem writeBytes_prefix_len (l : List Nat) (off : Nat) :
    ((l ++ List.replicate (off - l.length) 0).take off).length = off := by
  simp only [List.length_take, List.length_append, List.length_replicate]
  omega

/-- The file from a written region onward: the data, then what the old
file had after the region. -/
theorem drop_writeBytes (l : List Nat) (off : Nat) (d : List Nat) :
    (writeBytes l off d).drop off = d ++ l.drop (off + d.length) := by
  unfold writeBytes
  rw [List.append_assoc]
  have hlen := writeBytes_prefix_len l off
  generalize hA : (l ++ List.replicate (off - l.length) 0).take off = A at hlen ⊢
  rw [← hlen, List.drop_left]

/-- Reading strictly before a written region sees the old (padded) file. -/
theorem take_writeBytes_of_le (l : List Nat) (off : Nat) (d : List Nat) (n : Nat)
    (hn : n ≤ off) :
    (writeBytes l off d).take n = ((l ++ List.replicate (off - l.length) 0).take off).take n := by
  unfold writeBytes
  rw [List.append_assoc]
  have hlen := writeBytes_prefix_len l off
  generalize hA : (l ++ List.replicate (off - l.length) 0).take off = A at hlen ⊢
  exact List.take_append_of_le_length (by omega)

/-- The first four bytes of a 4-byte write at offset zero. -/
theorem take_four_u32LE_append (v : Nat) (rest : List Nat) :
    (u32LE v ++ rest).take 4 = u32LE v := rfl

/-- The first four bytes of a big-endian 4-byte write at offset zero. -/
theorem take_four_u32BE_append (v : Nat) (rest : List Nat) :
    (u32BE v ++ rest).take 4 = u32BE v := rfl

/-- `unpackLongInt` inverts the little-endian encoding on 32-bit values. -/
theorem unpackLongInt_u32LE (v : Nat) (hv : v ≤ 4294967295) :
    unpackLongInt (u32LE v) false = v := by
  simp only [unpackLongInt, u32LE, Bool.false_eq_true, if_false, List.foldr]
  omega

/-- `unpackLongInt` inverts the big-endian encoding on 32-bit values. -/
theorem unpackLongInt_u32BE (v : Nat) (hv : v ≤ 4294967295) :
    unpackLongInt (u32BE v) true = v := by
  simp only [unpackLongInt, u32BE, if_true, List.foldl]
  omega

/-- `db3Put` unfolded on the success path of the header write (that is,
when the new `nextmemo` fits in 32 bits, so `packLongInt` succeeds). -/
theorem db3Put_eq (m : Db3Memo) (s : List Nat)
    (hsz : m.nextmemo + db3Blocks ((rstrip s).length + 2) ≤ 4294967295) :
    db3Put m s =
      (⟨writeBytes (writeBytes m.file 0
            (u32LE (m.nextmemo + db3Blocks ((rstrip s).length + 2))))
          (m.nextmemo * 512) (rstrip s ++ [26, 26]),
        m.nextmemo + db3Blocks ((rstrip s).length + 2)⟩,
       if (db3Get ⟨writeBytes (writeBytes m.file 0
              (u32LE (m.nextmemo + db3Blocks ((rstrip s).length + 2))))
            (m.nextmemo * 512) (rstrip s ++ [26, 26]),
          m.nextmemo + db3Blocks ((rstrip s).length + 2)⟩ m.nextmemo).length
          ≠ (rstrip s).length
       then Except.error (PyErr.dbfError "unknown error: memo not saved")
       else Except.ok m.nextmemo) := by
  have hp : packLongInt (m.nextmemo + db3Blocks ((rstrip s).length + 2)) false
      = Except.ok (u32LE (m.nextmemo + db3Blocks ((rstrip s).length + 2))) := by
    unfold packLongInt
    rw [if_neg (by omega)]
    rfl
  simp only [db3Put, hp]
  by_cases hc : (db3Get ⟨writeBytes (writeBytes m.file 0
        (u32LE (m.nextmemo + db3Blocks ((rstrip s).length + 2))))
      (m.nextmemo * 512) (rstrip s ++ [26, 26]),
      m.nextmemo + db3Blocks ((rstrip s).length + 2)⟩ m.nextmemo).length
      ≠ (rstrip s).length
  · rw [if_pos hc, if_pos hc]
  · rw [if_neg hc, if_neg hc]

/-- After a `db3Put`, reading the written block back yields the stripped
payload, provided the stripped payload contains no `0x1A 0x1A` pair and
does not end in `0x1A`; the read-back length check then passes and the
put returns the old `nextmemo` as the block number. -/
theorem db3Put_clean (m : Db3Memo) (s : List Nat)
    (hsz : m.nextmemo + db3Blocks ((rstrip s).length + 2) ≤ 4294967295)
    (hterm : findTerm (rstrip s) = none)
    (hlast : (rstrip s).getLast? ≠ some 26) :
    db3Get (db3Put m s).1 m.nextmemo = rstrip s ∧
    (db3Put m s).2 = Except.ok m.nextmemo := by
  rw [db3Put_eq m s hsz]
  have hdrop : (writeBytes (writeBytes m.file 0
        (u32LE (m.nextmemo + db3Blocks ((rstrip s).length + 2))))
      (m.nextmemo * 512) (rstrip s ++ [26, 26])).drop (m.nextmemo * 512)
      = rstrip s ++ 26 :: 26 :: ((writeBytes m.file 0
          (u32LE (m.nextmemo + db3Blocks ((rstrip s).length + 2)))).drop
            (m.nextmemo * 512 + (rstrip s ++ [26, 26]).length)) := by
    rw [drop_writeBytes]
    simp
  have hterm2 := findTerm_term_at ((writeBytes m.file 0
      (u32LE (m.nextmemo + db3Blocks ((rstrip s).length + 2)))).drop
        (m.nextmemo * 512 + (rstrip s ++ [26, 26]).length)) (rstrip s) hterm hlast
  have hget : db3Get ⟨writeBytes (writeBytes m.file 0
        (u32LE (m.nextmemo + db3Blocks ((rstrip s).length + 2))))
      (m.nextmemo * 512) (rstrip s ++ [26, 26]),
      m.nextmemo + db3Blocks ((rstrip s).length + 2)⟩ m.nextmemo = rstrip s := by
    rw [db3Get_of_term _ _ (rstrip s).length (by rw [hdrop]; exact hterm2)]
    rw [hdrop]
    rw [List.take_append_of_le_length (Nat.le_refl _), List.take_length, rstrip_idem]
  refine ⟨hget, ?_⟩
  rw [if_neg (by rw [hget]; exact not_ne_iff.mpr rfl)]

/-- Claim C3: on the dBase III memo store, `put` advances `nextmemo` (and
the stored 4-byte header) by exactly `ceil((len+2)/512)` blocks where
`len` is the length of the stored (right-stripped) payload, writes the
payload followed by the terminator at the old `next_free_block`, and
reads the memo back to verify its length, raising on mismatch; whenever
it returns a block number, that number is the old `next_free_block` and
getting it yields the payload with trailing whitespace stripped. -/
theorem C3_db3_put_memo (m : Db3Memo) (s : List Nat)
    (h1 : 1 ≤ m.nextmemo)
    (hsz : m.nextmemo + db3Blocks ((rstrip s).length + 2) ≤ 4294967295) :
    (db3Put m s).1.nextmemo = m.nextmemo + db3Blocks ((rstrip s).length + 2) ∧
    unpackLongInt ((db3Put m s).1.file.take 4) false
      = m.nextmemo + db3Blocks ((rstrip s).length + 2) ∧
    ((db3Put m s).1.file.drop (m.nextmemo * 512)).take ((rstrip s).length + 2)
      = rstrip s ++ [26, 26] ∧
    ∀ blk, (db3Put m s).2 = Except.ok blk →
      blk = m.nextmemo ∧ db3Get (db3Put m s).1 blk = rstrip s := by
  rw [db3Put_eq m s hsz]
  have hf1 : writeBytes m.file 0 (u32LE (m.nextmemo + db3Blocks ((rstrip s).length + 2)))
      = u32LE (m.nextmemo + db3Blocks ((rstrip s).length + 2)) ++ m.file.drop 4 := by
    rw [writeBytes_zero]
    simp [u32LE]
  refine ⟨rfl, ?_, ?_, ?_⟩
  · have h4off : (4 : Nat) ≤ m.nextmemo * 512 := by
      have : 512 ≤ m.nextmemo * 512 := Nat.le_mul_of_pos_left 512 h1
      omega
    rw [take_writeBytes_of_le _ _ _ 4 h4off, List.take_take,
      min_eq_left h4off, List.take_append_of_le_length (by rw [hf1]; simp [u32LE]),
      hf1, take_four_u32LE_append, unpackLongInt_u32LE _ (by omega)]
  · rw [drop_writeBytes]
    rw [List.take_append_of_le_length (by simp), List.take_of_length_le (by simp)]
  · intro blk hblk
    by_cases hc : (db3Get ⟨writeBytes (writeBytes m.file 0
          (u32LE (m.nextmemo + db3Blocks ((rstrip s).length + 2))))
        (m.nextmemo * 512) (rstrip s ++ [26, 26]),
        m.nextmemo + db3Blocks ((rstrip s).length + 2)⟩ m.nextmemo).length
        ≠ (rstrip s).length
    · rw [if_pos hc] at hblk
      exact Except.noConfusion hblk
    · rw [if_neg hc] at hblk
      cases hblk
      refine ⟨rfl, ?_⟩
      have hceq := not_ne_iff.mp hc
      have hdrop : (writeBytes (writeBytes m.file 0
            (u32LE (m.nextmemo + db3Blocks ((rstrip s).length + 2))))
          (m.nextmemo * 512) (rstrip s ++ [26, 26])).drop (m.nextmemo * 512)
          = rstrip s ++ 26 :: 26 :: ((writeBytes m.file 0
              (u32LE (m.nextmemo + db3Blocks ((rstrip s).length + 2)))).drop
                (m.nextmemo * 512 + (rstrip s ++ [26, 26]).length)) := by
        rw [drop_writeBytes]
        simp
      obtain ⟨p, hp, hple⟩ := findTerm_le_append ((writeBytes m.file 0
          (u32LE (m.nextmemo + db3Blocks ((rstrip s).length + 2)))).drop
            (m.nextmemo * 512 + (rstrip s ++ [26, 26]).length)) (rstrip s)
      have hget := db3Get_of_term ⟨writeBytes (writeBytes m.file 0
            (u32LE (m.nextmemo + db3Blocks ((rstrip s).length + 2))))
          (m.nextmemo * 512) (rstrip s ++ [26, 26]),
          m.nextmemo + db3Blocks ((rstrip s).length + 2)⟩ m.nextmemo p
        (by rw [hdrop]; exact hp)
      rw [hdrop, List.take_append_of_le_length hple] at hget
      have hlen1 : (rstrip ((rstrip s).take p)).length ≤ p := by
        have hx := rstrip_length_le ((rstrip s).take p)
        simp only [List.length_take] at hx
        omega
      rw [hget] at hceq ⊢
      have hpd : p = (rstrip s).length := by omega
      subst hpd
      rw [List.take_length, rstrip_idem]

/-- Witness for `C3_db3_put_memo`: a fresh dBase III memo file (header
block only, `nextmemo = 1`) and the payload `"ab "`; the stripped payload
`"ab"` needs one block. -/
theorem C3_db3_put_memo_witness :
    ((1 : Nat) ≤ (Db3Memo.mk ([1, 0, 0, 0] ++ List.replicate 508 0) 1).nextmemo ∧
     (Db3Memo.mk ([1, 0, 0, 0] ++ List.replicate 508 0) 1).nextmemo
       + db3Blocks ((rstrip [97, 98, 32]).length + 2) ≤ 4294967295) ∧
    ((db3Put (Db3Memo.mk ([1, 0, 0, 0] ++ List.replicate 508 0) 1) [97, 98, 32]).1.nextmemo
      = (Db3Memo.mk ([1, 0, 0, 0] ++ List.replicate 508 0) 1).nextmemo
        + db3Blocks ((rstrip [97, 98, 32]).length + 2) ∧
     unpackLongInt ((db3Put (Db3Memo.mk ([1, 0, 0, 0] ++ List.replicate 508 0) 1)
        [97, 98, 32]).1.file.take 4) false
      = (Db3Memo.mk ([1, 0, 0, 0] ++ List.replicate 508 0) 1).nextmemo
        + db3Blocks ((rstrip [97, 98, 32]).length + 2) ∧
     ((db3Put (Db3Memo.mk ([1, 0, 0, 0] ++ List.replicate 508 0) 1)
        [97, 98, 32]).1.file.drop
          ((Db3Memo.mk ([1, 0, 0, 0] ++ List.replicate 508 0) 1).nextmemo * 512)).take
            ((rstrip [97, 98, 32]).length + 2) = rstrip [97, 98, 32] ++ [26, 26] ∧
     ∀ blk, (db3Put (Db3Memo.mk ([1, 0, 0, 0] ++ List.replicate 508 0) 1)
        [97, 98, 32]).2 = Except.ok blk →
       blk = (Db3Memo.mk ([1, 0, 0, 0] ++ List.replicate 508 0) 1).nextmemo ∧
       db3Get (db3Put (Db3Memo.mk ([1, 0, 0, 0] ++ List.replicate 508 0) 1)
          [97, 98, 32]).1 blk = rstrip [97, 98, 32]) :=
  ⟨⟨by decide, by decide⟩,
   C3_db3_put_memo (Db3Memo.mk ([1, 0, 0, 0] ++ List.replicate 508 0) 1) [97, 98, 32]
     (by decide) (by decide)⟩

/-- `vfpPut` unfolded when both header packs fit in 32 bits. -/
theorem vfpPut_eq (w : VfpMemo) (t : List Nat)
    (hw1 : unpackLongInt (w.file.take 4) true
        + (((rstrip t).length + 8) / w.memo_size
          + (if ((rstrip t).length + 8) % w.memo_size = 0 then 0 else 1)) ≤ 4294967295)
    (hw2 : (rstrip t).length ≤ 4294967295) :
    vfpPut w t =
      (⟨writeBytes (writeBytes w.file 0
            (u32BE (unpackLongInt (w.file.take 4) true
              + (((rstrip t).length + 8) / w.memo_size
                + (if ((rstrip t).length + 8) % w.memo_size = 0 then 0 else 1)))))
          (unpackLongInt (w.file.take 4) true * w.memo_size)
          ([0, 0, 0, 1] ++ u32BE (rstrip t).length ++ rstrip t),
        w.memo_size⟩,
       Except.ok (unpackLongInt (w.file.take 4) true)) := by
  have hp1 : packLongInt (unpackLongInt (w.file.take 4) true
      + (((rstrip t).length + 8) / w.memo_size
        + (if ((rstrip t).length + 8) % w.memo_size = 0 then 0 else 1))) true
      = Except.ok (u32BE (unpackLongInt (w.file.take 4) true
        + (((rstrip t).length + 8) / w.memo_size
          + (if ((rstrip t).length + 8) % w.memo_size = 0 then 0 else 1)))) := by
    unfold packLongInt
    rw [if_neg (by omega)]
    rfl
  have hp2 : packLongInt (rstrip t).length true = Except.ok (u32BE (rstrip t).length) := by
    unfold packLongInt
    rw [if_neg (by omega)]
    rfl
  simp only [vfpPut, hp1, hp2]

/-- Reading a VFP memo whose on-disk layout at the block is the 8-byte
record header followed by the payload returns exactly the payload. -/
theorem vfpGet_of_layout (w : VfpMemo) (block : Nat) (data rest : List Nat)
    (hlen : data.length ≤ 4294967295)
    (h : w.file.drop (block * w.memo_size)
      = 0 :: 0 :: 0 :: 1 :: (u32BE data.length ++ (data ++ rest))) :
    vfpGet w block = data := by
  have e1 : (((0 :: 0 :: 0 :: 1 :: (u32BE data.length ++ (data ++ rest))) : List Nat).take 8).drop 4
      = u32BE data.length := rfl
  have e2 : ((0 :: 0 :: 0 :: 1 :: (u32BE data.length ++ (data ++ rest))) : List Nat).drop 8
      = data ++ rest := rfl
  simp only [vfpGet, h, e1, e2, unpackLongInt_u32BE _ hlen, List.take_left]

set_option maxRecDepth 100000 in
/-- Claim C10 as stated is false: the dBase III proviso "s contains no
embedded 0x1A 0x1A byte pair" is not enough.  For the payload
`0x61 0x1A` (no such pair), the stripped payload ends in `0x1A`, so the
written terminator forms a pair one byte early, the read-back sees a
truncated memo, and `put` raises `DbfError` instead of storing the
payload — the write itself fails, so no round-trip happens. -/
theorem C10_counterexample :
    findTerm [97, 26] = none ∧ rstrip [97, 26] = [97, 26] ∧
    (db3Put (Db3Memo.mk ([1, 0, 0, 0] ++ List.replicate 508 0) 1) [97, 26]).2
      = Except.error (PyErr.dbfError "unknown error: memo not saved") := by
  refine ⟨by decide, by decide, ?_⟩
  rfl

/-- Claim C10, amended: both memo stores strip trailing whitespace before
storing, and re-reading returns `s.rstrip()` — for the VFP store for
every payload, and for the dBase III store for every payload whose
STRIPPED form neither contains a `0x1A 0x1A` pair nor ends in `0x1A`
(otherwise the read-back check of `put` raises `DbfError` and the write
fails).  Size side conditions keep the 4-byte headers in range. -/
theorem C10_memo_roundtrip (m : Db3Memo) (w : VfpMemo) (s t : List Nat)
    (hsz : m.nextmemo + db3Blocks ((rstrip s).length + 2) ≤ 4294967295)
    (hterm : findTerm (rstrip s) = none)
    (hlast : (rstrip s).getLast? ≠ some 26)
    (hw1 : unpackLongInt (w.file.take 4) true
        + (((rstrip t).length + 8) / w.memo_size
          + (if ((rstrip t).length + 8) % w.memo_size = 0 then 0 else 1)) ≤ 4294967295)
    (hw2 : (rstrip t).length ≤ 4294967295) :
    (db3Put m s).2 = Except.ok m.nextmemo ∧
    db3Get (db3Put m s).1 m.nextmemo = rstrip s ∧
    (vfpPut w t).2 = Except.ok (unpackLongInt (w.file.take 4) true) ∧
    vfpGet (vfpPut w t).1 (unpackLongInt (w.file.take 4) true) = rstrip t := by
  obtain ⟨hget, hok⟩ := db3Put_clean m s hsz hterm hlast
  refine ⟨hok, hget, ?_, ?_⟩
  · rw [vfpPut_eq w t hw1 hw2]
  · rw [vfpPut_eq w t hw1 hw2]
    apply vfpGet_of_layout _ _ (rstrip t)
      ((writeBytes w.file 0 (u32BE (unpackLongInt (w.file.take 4) true
        + (((rstrip t).length + 8) / w.memo_size
          + (if ((rstrip t).length + 8) % w.memo_size = 0 then 0 else 1))))).drop
        (unpackLongInt (w.file.take 4) true * w.memo_size
          + ([0, 0, 0, 1] ++ u32BE (rstrip t).length ++ rstrip t).length)) hw2
    show (writeBytes (writeBytes w.file 0 _) (unpackLongInt (w.file.take 4) true * w.memo_size)
        ([0, 0, 0, 1] ++ u32BE (rstrip t).length ++ rstrip t)).drop
          (unpackLongInt (w.file.take 4) true * w.memo_size) = _
    rw [drop_writeBytes]
    simp [List.append_assoc]

/-- Witness for `C10_memo_roundtrip`: a fresh dBase III memo and a fresh
VFP memo with 64-byte blocks, payloads `"ab "` and `"hi \t"`. -/
theorem C10_memo_roundtrip_witness :
    ((Db3Memo.mk ([1, 0, 0, 0] ++ List.replicate 508 0) 1).nextmemo
        + db3Blocks ((rstrip [97, 98, 32]).length + 2) ≤ 4294967295 ∧
     findTerm (rstrip [97, 98, 32]) = none ∧
     (rstrip [97, 98, 32]).getLast? ≠ some 26 ∧
     unpackLongInt ((VfpMemo.mk ([0, 0, 0, 8, 0, 0, 0, 64] ++ List.replicate 504 0) 64).file.take 4) true
        + (((rstrip [104, 105, 32, 9]).length + 8) / (VfpMemo.mk ([0, 0, 0, 8, 0, 0, 0, 64] ++ List.replicate 504 0) 64).memo_size
          + (if ((rstrip [104, 105, 32, 9]).length + 8) % (VfpMemo.mk ([0, 0, 0, 8, 0, 0, 0, 64] ++ List.replicate 504 0) 64).memo_size = 0 then 0 else 1)) ≤ 4294967295 ∧
     (rstrip [104, 105, 32, 9]).length ≤ 4294967295) ∧
    ((db3Put (Db3Memo.mk ([1, 0, 0, 0] ++ List.replicate 508 0) 1) [97, 98, 32]).2
       = Except.ok (Db3Memo.mk ([1, 0, 0, 0] ++ List.replicate 508 0) 1).nextmemo ∧
     db3Get (db3Put (Db3Memo.mk ([1, 0, 0, 0] ++ List.replicate 508 0) 1) [97, 98, 32]).1
        (Db3Memo.mk ([1, 0, 0, 0] ++ List.replicate 508 0) 1).nextmemo = rstrip [97, 98, 32] ∧
     (vfpPut (VfpMemo.mk ([0, 0, 0, 8, 0, 0, 0, 64] ++ List.replicate 504 0) 64) [104, 105, 32, 9]).2
       = Except.ok (unpackLongInt ((VfpMemo.mk ([0, 0, 0, 8, 0, 0, 0, 64] ++ List.replicate 504 0) 64).file.take 4) true) ∧
     vfpGet (vfpPut (VfpMemo.mk ([0, 0, 0, 8, 0, 0, 0, 64] ++ List.replicate 504 0) 64) [104, 105, 32, 9]).1
        (unpackLongInt ((VfpMemo.mk ([0, 0, 0, 8, 0, 0, 0, 64] ++ List.replicate 504 0) 64).file.take 4) true)
       = rstrip [104, 105, 32, 9]) :=
  ⟨⟨by decide, by decide, by decide, by decide, by decide⟩,
   C10_memo_roundtrip (Db3Memo.mk ([1, 0, 0, 0] ++ List.replicate 508 0) 1)
     (VfpMemo.mk ([0, 0, 0, 8, 0, 0, 0, 64] ++ List.replicate 504 0) 64)
     [97, 98, 32] [104, 105, 32, 9]
     (by decide) (by decide) (by decide) (by decide) (by decide)⟩

/-! ### Table file size lemmas -/

/-- Two table states with equal fields are equal. -/
theorem diskState_ext (a b : DiskState) (h1 : a.start = b.start)
    (h2 : a.record_length = b.record_length) (h3 : a.record_count = b.record_count)
    (h4 : a.fileLen = b.fileLen) (h5 : a.isDb3 = b.isDb3) : a = b := by
  cases a
  cases b
  simp_all

/-- `dwrite` leaves `start` unchanged. -/
theorem dwrite_start (s : DiskState) (off n : Nat) : (dwrite s off n).start = s.start := rfl

/-- `dwrite` leaves `record_length` unchanged. -/
theorem dwrite_record_length (s : DiskState) (off n : Nat) :
    (dwrite s off n).record_length = s.record_length := rfl

/-- `dwrite` leaves `record_count` unchanged. -/
theorem dwrite_record_count (s : DiskState) (off n : Nat) :
    (dwrite s off n).record_count = s.record_count := rfl

/-- `dwrite` leaves `isDb3` unchanged. -/
theorem dwrite_isDb3 (s : DiskState) (off n : Nat) : (dwrite s off n).isDb3 = s.isDb3 := rfl

/-- `dwrite` extends the file to at least the end of the write. -/
theorem dwrite_fileLen (s : DiskState) (off n : Nat) :
    (dwrite s off n).fileLen = max s.fileLen (off + n) := rfl

/-- `dtruncate` leaves `start` unchanged. -/
theorem dtruncate_start (s : DiskState) (n : Nat) : (dtruncate s n).start = s.start := rfl

/-- `dtruncate` leaves `record_length` unchanged. -/
theorem dtruncate_record_length (s : DiskState) (n : Nat) :
    (dtruncate s n).record_length = s.record_length := rfl

/-- `dtruncate` leaves `record_count` unchanged. -/
theorem dtruncate_record_count (s : DiskState) (n : Nat) :
    (dtruncate s n).record_count = s.record_count := rfl

/-- `dtruncate` leaves `isDb3` unchanged. -/
theorem dtruncate_isDb3 (s : DiskState) (n : Nat) : (dtruncate s n).isDb3 = s.isDb3 := rfl

/-- `dtruncate` sets the length exactly. -/
theorem dtruncate_fileLen (s : DiskState) (n : Nat) : (dtruncate s n).fileLen = n := rfl

/-- Rewriting records in place leaves `start` unchanged. -/
theorem foldl_rud_start (l : List Nat) :
    ∀ s : DiskState, (l.foldl recordUpdateDisk s).start = s.start := by
  induction l with
  | nil => intro s; rfl
  | cons a l ih => intro s; rw [List.foldl_cons, ih]; rfl

/-- Rewriting records in place leaves `record_length` unchanged. -/
theorem foldl_rud_record_length (l : List Nat) :
    ∀ s : DiskState, (l.foldl recordUpdateDisk s).record_length = s.record_length := by
  induction l with
  | nil => intro s; rfl
  | cons a l ih => intro s; rw [List.foldl_cons, ih]; rfl

/-- Rewriting records in place leaves `record_count` unchanged. -/
theorem foldl_rud_record_count (l : List Nat) :
    ∀ s : DiskState, (l.foldl recordUpdateDisk s).record_count = s.record_count := by
  induction l with
  | nil => intro s; rfl
  | cons a l ih => intro s; rw [List.foldl_cons, ih]; rfl

/-- Rewriting records in place leaves `isDb3` unchanged. -/
theorem foldl_rud_isDb3 (l : List Nat) :
    ∀ s : DiskState, (l.foldl recordUpdateDisk s).isDb3 = s.isDb3 := by
  induction l with
  | nil => intro s; rfl
  | cons a l ih => intro s; rw [List.foldl_cons, ih]; rfl

/-- A full `_update_disk()` truncates the file to exactly the invariant
size, whatever the length was before. -/
theorem updateDisk_false_eq (s : DiskState) :
    updateDisk s false = { s with fileLen := s.start + s.record_count * s.record_length
      + (if s.isDb3 then 1 else 0) } := by
  apply diskState_ext <;>
    simp [updateDisk, writeAllRecords, apply_ite DiskState.start,
      apply_ite DiskState.record_length, apply_ite DiskState.record_count,
      apply_ite DiskState.fileLen, apply_ite DiskState.isDb3,
      dtruncate_start, dtruncate_record_length, dtruncate_record_count,
      dtruncate_isDb3, dtruncate_fileLen, dwrite_start, dwrite_record_length,
      dwrite_record_count, dwrite_isDb3, dwrite_fileLen,
      foldl_rud_start, foldl_rud_record_length, foldl_rud_record_count,
      foldl_rud_isDb3]
  cases hdb : s.isDb3 <;> simp [hdb]

/-- `_update_disk(headeronly=True)` re-truncates a dBase III file to the
invariant size and only pads any other file to at least `start`. -/
theorem updateDisk_true_eq (s : DiskState) :
    updateDisk s true = if s.isDb3 then
        { s with fileLen := s.start + s.record_count * s.record_length + 1 }
      else { s with fileLen := max s.fileLen s.start } := by
  cases hdb : s.isDb3 <;>
    apply diskState_ext <;>
    simp [updateDisk, hdb, apply_ite DiskState.start,
      apply_ite DiskState.record_length, apply_ite DiskState.record_count,
      apply_ite DiskState.fileLen, apply_ite DiskState.isDb3,
      dtruncate_start, dtruncate_record_length, dtruncate_record_count,
      dtruncate_isDb3, dtruncate_fileLen, dwrite_start, dwrite_record_length,
      dwrite_record_count, dwrite_isDb3, dwrite_fileLen]

/-- The blank-record write of `append` extends the file by exactly one
record and bumps the count. -/
theorem appendBlank_eq (s : DiskState)
    (hf : s.fileLen = s.start + s.record_count * s.record_length + (if s.isDb3 then 1 else 0))
    (hr : 1 ≤ s.record_length) :
    appendBlank s = { s with
      record_count := s.record_count + 1
      fileLen := s.start + (s.record_count + 1) * s.record_length } := by
  apply diskState_ext <;>
    simp [appendBlank, recordUpdateDisk, dwrite_start, dwrite_record_length,
      dwrite_record_count, dwrite_isDb3, dwrite_fileLen]
  rw [hf, Nat.succ_mul]
  cases hdb : s.isDb3 <;> simp [hdb] <;> omega

/-- The extra-copy loop of `append` writes the copies contiguously after
the current end of file. -/
theorem writeCopies_spec :
    ∀ (n : Nat) (s : DiskState) (single : Nat),
      s.fileLen = s.start + single * s.record_length →
      writeCopies s single n
        = { s with fileLen := s.start + (single + n) * s.record_length } := by
  intro n
  induction n with
  | zero =>
    intro s single h
    conv_rhs => rw [Nat.add_zero, ← h]
    rfl
  | succ n ih =>
    intro s single h
    have h2 : (recordUpdateDisk (recordUpdateDisk s single) single)
        = { s with fileLen := s.start + (single + 1) * s.record_length } := by
      apply diskState_ext <;>
        simp [recordUpdateDisk, dwrite_start, dwrite_record_length,
          dwrite_record_count, dwrite_isDb3, dwrite_fileLen]
      rw [h, Nat.succ_mul]
      omega
    show writeCopies (recordUpdateDisk (recordUpdateDisk s single) single) (single + 1) n = _
    rw [h2, ih { s with fileLen := s.start + (single + 1) * s.record_length } (single + 1) rfl]
    apply diskState_ext <;> simp
    have harith : single + 1 + n = single + (n + 1) := by omega
    rw [harith]
    exact Or.inl rfl

/-- A headeronly sync starting from a file of exactly
`start + record_count * record_length` bytes establishes the size
invariant (dBase III gets its trailing byte, others stay flush). -/
theorem updateDisk_true_inv (s : DiskState)
    (h0 : s.fileLen = s.start + s.record_count * s.record_length)
    (hr : 1 ≤ s.record_length) : sizeInvariant (updateDisk s true) := by
  rw [updateDisk_true_eq]
  unfold sizeInvariant
  cases hdb : s.isDb3 with
  | true =>
    rw [if_pos rfl]
    exact ⟨by simp, hr⟩
  | false =>
    rw [if_neg (by simp)]
    refine ⟨?_, hr⟩
    show max s.fileLen s.start = s.start + s.record_count * s.record_length
      + (if false = true then 1 else 0)
    simp only [Bool.false_eq_true, if_false]
    omega

/-- A successful `append` leaves the table at the invariant size. -/
theorem appendOk_inv (s : DiskState) (mult : Nat) (h : sizeInvariant s) :
    sizeInvariant (appendOk s mult) := by
  obtain ⟨hf, hr⟩ := h
  simp only [appendOk]
  rw [appendBlank_eq s hf hr]
  have h2 : recordUpdateDisk { s with
      record_count := s.record_count + 1
      fileLen := s.start + (s.record_count + 1) * s.record_length }
      ({ s with
        record_count := s.record_count + 1
        fileLen := s.start + (s.record_count + 1) * s.record_length }.record_count - 1)
      = { s with
        record_count := s.record_count + 1
        fileLen := s.start + (s.record_count + 1) * s.record_length } := by
    apply diskState_ext <;>
      simp [recordUpdateDisk, dwrite_start, dwrite_record_length,
        dwrite_record_count, dwrite_isDb3, dwrite_fileLen]
    rw [Nat.succ_mul]
    omega
  rw [h2, writeCopies_spec (mult - 1) _ (s.record_count + 1) rfl]
  apply updateDisk_true_inv
  · simp
  · exact hr

/-- Every public-API step preserves the size invariant. -/
theorem step_preserves (s t : DiskState) (h : sizeInvariant s) (hst : Step s t) :
    sizeInvariant t := by
  obtain ⟨hf, hr⟩ := h
  cases hst with
  | writeRecord recnum hrec =>
    refine ⟨?_, hr⟩
    have hb : (recnum + 1) * s.record_length ≤ s.record_count * s.record_length :=
      Nat.mul_le_mul_right _ hrec
    rw [Nat.succ_mul] at hb
    show max s.fileLen (s.start + recnum * s.record_length + s.record_length)
      = s.start + s.record_count * s.record_length + (if s.isDb3 then 1 else 0)
    rw [hf]
    omega
  | sync =>
    rw [updateDisk_false_eq]
    exact ⟨rfl, hr⟩
  | headerSync =>
    rw [updateDisk_true_eq]
    unfold sizeInvariant
    cases hdb : s.isDb3 with
    | true =>
      rw [if_pos rfl]
      exact ⟨by simp, hr⟩
    | false =>
      rw [if_neg (by simp)]
      refine ⟨?_, hr⟩
      show max s.fileLen s.start = s.start + s.record_count * s.record_length
        + (if false = true then 1 else 0)
      rw [hdb] at hf
      simp only [Bool.false_eq_true, if_false] at hf ⊢
      omega
  | append mult => exact appendOk_inv s mult ⟨hf, hr⟩
  | appendRollback =>
    simp only [appendFail]
    rw [appendBlank_eq s hf hr, updateDisk_false_eq]
    refine ⟨?_, hr⟩
    simp
  | pack removed hrem =>
    rw [updateDisk_false_eq]
    exact ⟨rfl, hr⟩
  | zap =>
    rw [updateDisk_false_eq]
    exact ⟨rfl, hr⟩
  | restructure start2 rlen2 h2 =>
    rw [updateDisk_false_eq]
    exact ⟨rfl, h2⟩

/-- Claim C5: in every on-disk table state reachable through the public
API (create, append, append-rollback, record writes, pack, zap, field
mutations, header and full syncs), the table file's size equals
`header.start + header.record_count * header.record_length`, plus one
trailing `0x1A` byte for dBase III tables. -/
theorem C5_file_size_invariant (s : DiskState) (h : Reachable s) :
    s.fileLen = s.start + s.record_count * s.record_length
      + (if s.isDb3 then 1 else 0) := by
  have main : sizeInvariant s := by
    induction h with
    | created start rlen fileLen db3 hrl =>
      rw [updateDisk_false_eq]
      exact ⟨rfl, hrl⟩
    | step s t _ hst ih => exact step_preserves s t ih hst
  exact main.1

/-- Witness for `C5_file_size_invariant`: a freshly created dBase III
table with a 2-byte record layout, after one successful append. -/
theorem C5_file_size_invariant_witness :
    (appendOk (updateDisk ⟨33, 2, 0, 0, true⟩ false) 1).fileLen
      = (appendOk (updateDisk ⟨33, 2, 0, 0, true⟩ false) 1).start
        + (appendOk (updateDisk ⟨33, 2, 0, 0, true⟩ false) 1).record_count
          * (appendOk (updateDisk ⟨33, 2, 0, 0, true⟩ false) 1).record_length
        + (if (appendOk (updateDisk ⟨33, 2, 0, 0, true⟩ false) 1).isDb3 then 1 else 0) :=
  C5_file_size_invariant _ (Reachable.step _ _
    (Reachable.created 33 2 0 true (by decide)) (Step.append _ 1))

/-- Claim C2: when the field-population step of `append` raises, the
exception propagates and `record_count`, the on-disk file length, and
the in-memory record list are all exactly what they were before the
`append` call (the pre-state is assumed to satisfy the file-size
invariant, which `C5_file_size_invariant` establishes for every
reachable state). -/
theorem C2_append_rollback {ρ : Type} (t : TableState ρ) (blank : ρ)
    (populate : ρ → Except PyErr ρ) (e : PyErr)
    (hfail : populate blank = Except.error e)
    (hinv : sizeInvariant t.disk) :
    (appendWith t blank populate).1.records = t.records ∧
    (appendWith t blank populate).1.disk.record_count = t.disk.record_count ∧
    (appendWith t blank populate).1.disk.fileLen = t.disk.fileLen ∧
    (appendWith t blank populate).2 = Except.error e := by
  obtain ⟨hf, hr⟩ := hinv
  simp only [appendWith, hfail]
  refine ⟨List.dropLast_concat, ?_, ?_, trivial⟩
  · rw [appendBlank_eq t.disk hf hr, updateDisk_false_eq]
    simp
  · rw [appendBlank_eq t.disk hf hr, updateDisk_false_eq]
    simp [hf]

/-- Witness for `C2_append_rollback`: a one-record dBase III table whose
population step raises `FieldMissing`. -/
theorem C2_append_rollback_witness :
    ((fun (_ : Nat) => (Except.error (PyErr.fieldMissing "age") : Except PyErr Nat)) 0
       = Except.error (PyErr.fieldMissing "age") ∧
     sizeInvariant (TableState.mk ⟨33, 2, 1, 36, true⟩ [7]).disk) ∧
    ((appendWith (TableState.mk ⟨33, 2, 1, 36, true⟩ [7]) 0
        (fun _ => Except.error (PyErr.fieldMissing "age"))).1.records
       = (TableState.mk ⟨33, 2, 1, 36, true⟩ [7]).records ∧
     (appendWith (TableState.mk ⟨33, 2, 1, 36, true⟩ [7]) 0
        (fun _ => Except.error (PyErr.fieldMissing "age"))).1.disk.record_count
       = (TableState.mk ⟨33, 2, 1, 36, true⟩ [7]).disk.record_count ∧
     (appendWith (TableState.mk ⟨33, 2, 1, 36, true⟩ [7]) 0
        (fun _ => Except.error (PyErr.fieldMissing "age"))).1.disk.fileLen
       = (TableState.mk ⟨33, 2, 1, 36, true⟩ [7]).disk.fileLen ∧
     (appendWith (TableState.mk ⟨33, 2, 1, 36, true⟩ [7]) 0
        (fun _ => Except.error (PyErr.fieldMissing "age"))).2
       = Except.error (PyErr.fieldMissing "age")) :=
  ⟨⟨rfl, ⟨by decide, by decide⟩⟩,
   C2_append_rollback (TableState.mk ⟨33, 2, 1, 36, true⟩ [7]) 0
     (fun _ => Except.error (PyErr.fieldMissing "age")) (PyErr.fieldMissing "age")
     rfl ⟨by decide, by decide⟩⟩


/-! ### Ordered index lemmas -/

/-- `list.insert` always adds exactly one element. -/
theorem insertAt_length {α : Type} :
    ∀ (l : List α) (n : Nat) (x : α), (insertAt l n x).length = l.length + 1 := by
  intro l
  induction l with
  | nil => intro n x; cases n <;> rfl
  | cons a l ih =>
    intro n x
    cases n with
    | zero => rfl
    | succ n =>
      show (a :: insertAt l n x).length = (a :: l).length + 1
      simp [ih]

/-- Members of an insertion are the inserted element or old members. -/
theorem mem_insertAt {α : Type} :
    ∀ (l : List α) (n : Nat) (x b : α), b ∈ insertAt l n x → b = x ∨ b ∈ l := by
  intro l
  induction l with
  | nil =>
    intro n x b hb
    cases n with
    | zero => simp [insertAt] at hb; exact Or.inl hb
    | succ n => simp [insertAt] at hb; exact Or.inl hb
  | cons a l ih =>
    intro n x b hb
    cases n with
    | zero =>
      rcases List.mem_cons.mp hb with rfl | h
      · exact Or.inl rfl
      · exact Or.inr h
    | succ n =>
      rcases List.mem_cons.mp hb with rfl | h
      · exact Or.inr (List.mem_cons_self _ _)
      · rcases ih n x b h with h1 | h2
        · exact Or.inl h1
        · exact Or.inr (List.mem_cons_of_mem _ h2)

/-- `list.pop(i)` produces a sublist. -/
theorem popAt_sublist {α : Type} :
    ∀ (l : List α) (n : Nat), (popAt l n).Sublist l := by
  intro l
  induction l with
  | nil => intro n; exact List.Sublist.refl _
  | cons a l ih =>
    intro n
    cases n with
    | zero => exact List.sublist_cons_self a l
    | succ n => exact List.Sublist.cons₂ a (ih n)

/-- An in-range `pop` removes exactly one element. -/
theorem popAt_length {α : Type} :
    ∀ (l : List α) (n : Nat), n < l.length → (popAt l n).length + 1 = l.length := by
  intro l
  induction l with
  | nil => intro n hn; simp at hn
  | cons a l ih =>
    intro n hn
    cases n with
    | zero => rfl
    | succ n =>
      show (a :: popAt l n).length + 1 = (a :: l).length
      have := ih n (by simpa using hn)
      simp only [List.length_cons]
      omega

/-- `bisect_right` on a cons cell. -/
theorem bisectRight_cons {K : Type} [LinearOrder K] (a : K) (l : List K) (x : K) :
    bisectRight (a :: l) x = if a ≤ x then bisectRight l x + 1 else 0 := by
  unfold bisectRight
  rw [List.takeWhile_cons]
  by_cases h : a ≤ x <;> simp [h]

/-- `bisect_left` on a cons cell. -/
theorem bisectLeft_cons {K : Type} [LinearOrder K] (a : K) (l : List K) (x : K) :
    bisectLeft (a :: l) x = if a < x then bisectLeft l x + 1 else 0 := by
  unfold bisectLeft
  rw [List.takeWhile_cons]
  by_cases h : a < x <;> simp [h]

/-- Inserting at `bisect_right` keeps the key vector sorted. -/
theorem insertAt_bisectRight_sorted {K : Type} [LinearOrder K] (x : K) :
    ∀ (l : List K), l.Sorted (· ≤ ·) →
      (insertAt l (bisectRight l x) x).Sorted (· ≤ ·) := by
  intro l
  induction l with
  | nil => intro _; simp [bisectRight, insertAt]
  | cons a l ih =>
    intro hs
    rw [List.sorted_cons] at hs
    obtain ⟨ha, hl⟩ := hs
    rw [bisectRight_cons]
    by_cases hax : a ≤ x
    · rw [if_pos hax]
      show (a :: insertAt l (bisectRight l x) x).Sorted (· ≤ ·)
      rw [List.sorted_cons]
      refine ⟨?_, ih hl⟩
      intro b hb
      rcases mem_insertAt l _ x b hb with rfl | hbl
      · exact hax
      · exact ha b hbl
    · rw [if_neg hax]
      show (x :: a :: l).Sorted (· ≤ ·)
      rw [List.sorted_cons]
      refine ⟨?_, by rw [List.sorted_cons]; exact ⟨ha, hl⟩⟩
      intro b hb
      rcases List.mem_cons.mp hb with rfl | hbl
      · exact le_of_not_le hax
      · exact le_trans (le_of_not_le hax) (ha b hbl)

/-- In a sorted key vector, every present key is found at its
`bisect_left` position. -/
theorem sorted_get_bisectLeft {K : Type} [LinearOrder K] :
    ∀ (l : List K) (k : K), l.Sorted (· ≤ ·) → k ∈ l →
      l[bisectLeft l k]? = some k := by
  intro l
  induction l with
  | nil => intro k _ hk; simp at hk
  | cons a l ih =>
    intro k hs hk
    rw [List.sorted_cons] at hs
    obtain ⟨ha, hl⟩ := hs
    rw [bisectLeft_cons]
    by_cases hak : a < k
    · rw [if_pos hak]
      have hk2 : k ∈ l := by
        rcases List.mem_cons.mp hk with rfl | h
        · exact absurd hak (lt_irrefl _)
        · exact h
      show (a :: l)[bisectLeft l k + 1]? = some k
      rw [List.getElem?_cons_succ]
      exact ih k hl hk2
    · rw [if_neg hak]
      have hak2 : a = k := by
        rcases List.mem_cons.mp hk with rfl | h
        · rfl
        · exact le_antisymm (ha k h) (not_lt.mp hak)
      show (a :: l)[0]? = some k
      rw [List.getElem?_cons_zero, hak2]

/-- The shared insertion step preserves well-formedness. -/
theorem indexInsert_wf {K : Type} [LinearOrder K] (st : IndexState K) (recno : Nat)
    (v : K) (h : indexWF st) : indexWF (indexInsert st recno v) := by
  obtain ⟨hs, hl⟩ := h
  constructor
  · exact insertAt_bisectRight_sorted v st.values hs
  · show (insertAt st.values (bisectRight st.values v) v).length
      = (insertAt st.recByVal (bisectRight st.values v) recno).length
    rw [insertAt_length, insertAt_length, hl]

/-- The construction walk preserves well-formedness. -/
theorem indexInitGo_wf {K : Type} [LinearOrder K] :
    ∀ (keys : List (Option K)) (st : IndexState K) (recno : Nat),
      indexWF st → indexWF (indexInitGo st recno keys) := by
  intro keys
  induction keys with
  | nil => intro st recno h; exact h
  | cons k rest ih =>
    intro st recno h
    cases k with
    | none => exact ih st (recno + 1) h
    | some v => exact ih (indexInsert st recno v) (recno + 1) (indexInsert_wf st recno v h)

/-- `Index.__init__` builds a well-formed index. -/
theorem indexInit_wf {K : Type} [LinearOrder K] (keys : List (Option K)) :
    indexWF (indexInit keys) :=
  indexInitGo_wf keys ⟨[], [], []⟩ 0 ⟨List.sorted_nil, rfl⟩

/-- The removal step of `Index.__call__` preserves well-formedness
whenever it does not raise. -/
theorem indexRemoveOld_wf {K : Type} [LinearOrder K] (st st2 : IndexState K)
    (recno : Nat) (h : indexWF st)
    (heq : indexRemoveOld st recno = Except.ok st2) : indexWF st2 := by
  obtain ⟨hs, hl⟩ := h
  unfold indexRemoveOld at heq
  cases hfind : assocFind st.records recno with
  | none =>
    rw [hfind] at heq
    cases heq
    exact ⟨hs, hl⟩
  | some v =>
    rw [hfind] at heq
    dsimp only at heq
    by_cases h1 : bisectLeft st.values v < st.values.length
    · rw [if_pos h1] at heq
      by_cases h2 : bisectLeft st.values v < st.recByVal.length
      · rw [if_pos h2] at heq
        cases heq
        constructor
        · exact List.Pairwise.sublist (popAt_sublist st.values _) hs
        · show (popAt st.values _).length = (popAt st.recByVal _).length
          have e1 := popAt_length st.values _ h1
          have e2 := popAt_length st.recByVal _ h2
          omega
      · rw [if_neg h2] at heq
        exact Except.noConfusion heq
    · rw [if_neg h1] at heq
      exact Except.noConfusion heq

/-- `Index.__call__` preserves well-formedness whenever it does not
raise. -/
theorem indexUpdate_wf {K : Type} [LinearOrder K] (st st2 : IndexState K)
    (recno : Nat) (nk : Option K) (h : indexWF st)
    (heq : indexUpdate st recno nk = Except.ok st2) : indexWF st2 := by
  unfold indexUpdate at heq
  cases hrem : indexRemoveOld st recno with
  | error e =>
    rw [hrem] at heq
    exact Except.noConfusion heq
  | ok st1 =>
    rw [hrem] at heq
    have h1 := indexRemoveOld_wf st st1 recno h hrem
    cases nk with
    | none =>
      cases heq
      exact h1
    | some v =>
      cases heq
      exact indexInsert_wf st1 recno v h1

/-- Claim C6, amended to what the code maintains: across construction and
every non-raising record-write update (including `DoNotIndex` updates),
`_values` stays non-decreasing and `_values` / `_rec_by_val` keep equal
lengths, so every key present in `_values` sits at its
`bisect_left(_values, key)` position.  The per-`(recno, key)` clause of
the claim — that `_rec_by_val` at that position holds that recno, and
that an update removes THAT recno's entry — fails with duplicate keys,
because the update pops position `bisect_left(_values, old_key)`, the
first entry with the old key, which may belong to a different record;
and a `DoNotIndex` update leaves the recno's stale key in `_records`
(see the counterexample). -/
theorem C6_index_maintained {K : Type} [LinearOrder K] (st : IndexState K)
    (h : IndexReachable st) :
    st.values.Sorted (· ≤ ·) ∧ st.values.length = st.recByVal.length ∧
    ∀ k ∈ st.values, st.values[bisectLeft st.values k]? = some k := by
  have hwf : indexWF st := by
    induction h with
    | init keys => exact indexInit_wf keys
    | step st st2 recno nk _ heq ih => exact indexUpdate_wf st st2 recno nk ih heq
  exact ⟨hwf.1, hwf.2, fun k hk => sorted_get_bisectLeft st.values k hwf.1 hk⟩

/-- Witness for `C6_index_maintained`: the index built over two records
with keys 3 and 1. -/
theorem C6_index_maintained_witness :
    (indexInit [some (3 : Int), some 1]).values.Sorted (· ≤ ·) ∧
    (indexInit [some (3 : Int), some 1]).values.length
      = (indexInit [some (3 : Int), some 1]).recByVal.length ∧
    ∀ k ∈ (indexInit [some (3 : Int), some 1]).values,
      (indexInit [some (3 : Int), some 1]).values[
        bisectLeft (indexInit [some (3 : Int), some 1]).values k]? = some k :=
  C6_index_maintained _ (IndexReachable.init _)

/-- Claim C6 as stated is false on the code.  Build the index over two
records that share the key 5: the entry `(1, 5)` is in `_records`, but
`_rec_by_val` at `bisect_left(_values, 5)` holds recno 0, not 1.  Then
update record 1 to key 7: the pop at `bisect_left` removes record 0's
entry, leaving `_rec_by_val = [1, 1]` — the update did not remove "any
existing entry for that recno".  Finally, a `DoNotIndex` update of a
one-record index empties `_values` but leaves `(0, 5)` in `_records`, so
the per-entry positional clause has no position to point at. -/
theorem C6_counterexample :
    ((1, (5 : Int)) ∈ (indexInit [some (5 : Int), some 5]).records) ∧
    (indexInit [some (5 : Int), some 5]).recByVal[
      bisectLeft (indexInit [some (5 : Int), some 5]).values (5 : Int)]? = some 0 ∧
    (indexUpdate (indexInit [some (5 : Int), some 5]) 1 (some 7)).map
      (fun st => st.recByVal) = Except.ok [1, 1] ∧
    (indexUpdate (indexInit [some (5 : Int)]) 0 none).map
      (fun st => (st.values, st.records)) = Except.ok ([], [(0, 5)]) := by
  refine ⟨by decide, by decide, ?_, ?_⟩
  · rfl
  · rfl

end Dbf
